import Mathlib

/-!
Shallow embedding of the pyco-particles emitter (src/src/particle_emitter.py,
src/src/particle_presets.py) and proofs about it.

Modelling conventions:
  * Python floats are modelled as rationals (ℚ); Python ints as ℤ (counters as ℕ).
  * pygame.Vector2 is `Vec2`, pygame.Color is `Color` (channels kept as ℤ; the
    range validation done by the pygame constructor belongs to the external
    rasterization backend and is not modelled).
  * pygame.Surface is modelled by the data the emitter reads and writes on it:
    the cached shape template it was copied from and the last fill colour and
    alpha applied to it.
  * `random.uniform(a, b)` is modelled as `a + (b - a) * u` applied to a caller
    supplied unit draw `u` (Python draws `u = random.random() ∈ [0,1)`);
    `random.randint`/`random.choice` draws are likewise supplied by the caller.
  * math.sin is an external library function; every definition that needs it
    takes it as an explicit argument `sinf : ℚ → ℚ`, and the theorems hold for
    every such function.  math.sqrt is passed the same way (`sqrtf`).
  * fallible Python code (raised exceptions) is modelled with `Except String`.
-/

namespace Pyco

/-- 2D vector of rationals, modelling `pygame.Vector2`. -/
structure Vec2 where
  x : ℚ
  y : ℚ
deriving DecidableEq

/-- Componentwise difference, modelling `Vector2` subtraction. -/
def Vec2.sub (a b : Vec2) : Vec2 := ⟨a.x - b.x, a.y - b.y⟩

/-- RGBA colour, modelling `pygame.Color` as the emitter uses it. -/
structure Color where
  r : ℤ
  g : ℤ
  b : ℤ
  a : ℤ
deriving DecidableEq

/-- The solid white (255, 255, 255, 255) the cached templates are drawn in. -/
def whiteC : Color := ⟨255, 255, 255, 255⟩

/-- The two primitive shapes the class-level cache holds. -/
inductive ShapeKind where
  | rect
  | circle
deriving DecidableEq

/-- Model of a `pygame.Surface` as the emitter manipulates it: which cached
    template it is a copy of (shape and integer size parameter: side length
    for rectangles, radius for circles), the last colour filled into it, and
    the global alpha set on it (`none` when `set_alpha` was never called). -/
structure Surface where
  kind : ShapeKind
  size : ℤ
  fill : Color
  alpha : Option ℚ
deriving DecidableEq

/-- Python `int(x)` on a float: truncation toward zero. -/
def pyInt (q : ℚ) : ℤ := if 0 ≤ q then ⌊q⌋ else ⌈q⌉

/-- Python float division; raises ZeroDivisionError on a zero divisor. -/
def pyDiv (a b : ℚ) : Except String ℚ :=
  if b = 0 then .error "float division by zero" else .ok (a / b)

/-- Python float floor division `a // b` (dimensions are nonzero in every
    scenario considered here, so the ZeroDivisionError case is not modelled). -/
def pyFloorDiv (a b : ℚ) : ℚ := ((⌊a / b⌋ : ℤ) : ℚ)

/-- Python list indexing `l[i]` with negative-index wraparound:
    `l[-k]` is the k-th element from the end. -/
def pyGet {α : Type} (l : List α) (i : ℤ) : Option α :=
  if 0 ≤ i then l.get? i.toNat
  else if -i ≤ (l.length : ℤ) then l.get? (l.length - (-i).toNat) else none

/-- `ParticleEmitter._SURFACES_RECT`: ten white filled squares of side 1..10,
    built once at class initialization. -/
def SURFACES_RECT : List Surface :=
  (List.range 10).map (fun i => ⟨.rect, (i : ℤ) + 1, whiteC, none⟩)

/-- `ParticleEmitter._SURFACES_CIRCLE`: ten white circles of radius 1..10 on
    2i×2i surfaces, built once at class initialization. -/
def SURFACES_CIRCLE : List Surface :=
  (List.range 10).map (fun i => ⟨.circle, (i : ℤ) + 1, whiteC, none⟩)

/-- `ParticleEmitter._get_rect_surface`: guard `0 <= size <= 10`, then return a
    copy of `_SURFACES_RECT[size - 1]` (a copy carries the same data in this
    model), else raise ValueError.  Note the guard's lower bound is 0 although
    the docstring and the error message both say the allowed range is 1–10. -/
def _get_rect_surface (size : ℤ) : Except String Surface :=
  if 0 ≤ size ∧ size ≤ 10 then
    match pyGet SURFACES_RECT (size - 1) with
    | some s => .ok s
    | none => .error "IndexError: list index out of range"
  else .error "Size must be between 1 and 10"

/-- `ParticleEmitter._get_circle_surface`: guard `1 <= radius <= 10`, then
    return a copy of `_SURFACES_CIRCLE[radius - 1]`, else raise ValueError. -/
def _get_circle_surface (radius : ℤ) : Except String Surface :=
  if 1 ≤ radius ∧ radius ≤ 10 then
    match pyGet SURFACES_CIRCLE (radius - 1) with
    | some s => .ok s
    | none => .error "IndexError: list index out of range"
  else .error "Radius must be between 1 and 10"

/-- C1.  The circle getter and the arguments 1..10 behave as the claim says,
    but the rectangle getter accepts 0: its guard is `0 <= size <= 10`, and
    `_SURFACES_RECT[-1]` wraps around to the cached size-10 template, so
    `getRectShape(0)` succeeds and returns a cached image instead of failing
    with the out-of-range error that its own docstring and error message
    promise for arguments outside 1..10. -/
theorem rect_cache_accepts_zero :
    _get_rect_surface 0 = .ok ⟨.rect, 10, whiteC, none⟩
      ∧ (_get_circle_surface 0).toOption = none
      ∧ (_get_rect_surface 11).toOption = none
      ∧ (_get_circle_surface 11).toOption = none
      ∧ ((List.range 10).all (fun i =>
            ((_get_rect_surface ((i : ℤ) + 1)).toOption ==
                some ⟨.rect, (i : ℤ) + 1, whiteC, none⟩)
            && ((_get_circle_surface ((i : ℤ) + 1)).toOption ==
                some ⟨.circle, (i : ℤ) + 1, whiteC, none⟩))) = true := by
  refine ⟨rfl, rfl, rfl, rfl, ?_⟩
  decide

/-- The four particle kinds of `ParticleBaseSettings.particle_type`. -/
inductive PType where
  | RECT
  | CIRCLE
  | LINE
  | ANIMATION
deriving DecidableEq

/-- The two spawn modes of `ParticleBaseSettings.spawn_type`. -/
inductive SType where
  | AUTO
  | EVENT
deriving DecidableEq

/-- `ParticleBaseSettings` (src/src/particle_presets.py) at its declared field
    types.  Colour fields hold resolved RGBA here; the runtime string-keyed
    attribute mechanics of the dataclass (`__setattr__`, `fields`) are modelled
    separately below for the configuration-application claim. -/
structure ParticleBaseSettings where
  spawn_rate : ℤ
  spawn_delay : ℚ
  particle_chance : ℚ
  color_start : Color
  color_end : Color
  gravity : ℚ
  sin_x : Bool
  sin_y : Bool
  particle_velocity_x : ℚ
  random_x_dir : Bool
  particle_velocity_y : ℚ
  random_y_dir : Bool
  random_velocity_deviation : ℚ
  lifetime : ℚ
  start_size : ℤ
  end_size : ℤ
  particle_type : PType
  spawn_type : SType
  glow_size : ℤ
  random_glow : ℤ
  start_alpha : ℤ
  end_alpha : ℤ
deriving DecidableEq

/-- The default values of `ParticleBaseSettings`. -/
def defaultSettings : ParticleBaseSettings :=
  { spawn_rate := 1
    spawn_delay := 1
    particle_chance := 1
    color_start := whiteC
    color_end := whiteC
    gravity := 981/1000
    sin_x := false
    sin_y := false
    particle_velocity_x := 0
    random_x_dir := false
    particle_velocity_y := 0
    random_y_dir := false
    random_velocity_deviation := 0
    lifetime := 1
    start_size := 1
    end_size := 1
    particle_type := .RECT
    spawn_type := .AUTO
    glow_size := 0
    random_glow := 0
    start_alpha := 255
    end_alpha := 255 }

/-- Modelled from the spec: `lerp` from `src.corefuncs` is not present under
    src/; the glossary defines it as linear interpolation between two numeric
    values by a factor. -/
def lerp (a b t : ℚ) : ℚ := a + (b - a) * t

/-- Modelled from the spec: `clamp` from `src.corefuncs` is not present under
    src/; §4.4 uses it to clamp a numeric size into the closed range [lo, hi]. -/
def clamp (v lo hi : ℤ) : ℤ := max lo (min v hi)

/-- `interpolate_color` (particle_emitter.py lines 17–31): per-channel
    `int(c1.ch + (c2.ch - c1.ch) * t)`, including the alpha channel.
    (The range check done by the `pygame.Color` constructor belongs to the
    external backend and is not modelled.) -/
def interpolate_color (c1 c2 : Color) (t : ℚ) : Color :=
  { r := pyInt ((c1.r : ℚ) + ((c2.r : ℚ) - (c1.r : ℚ)) * t)
    g := pyInt ((c1.g : ℚ) + ((c2.g : ℚ) - (c1.g : ℚ)) * t)
    b := pyInt ((c1.b : ℚ) + ((c2.b : ℚ) - (c1.b : ℚ)) * t)
    a := pyInt ((c1.a : ℚ) + ((c2.a : ℚ) - (c1.a : ℚ)) * t) }

/-- The `Particle` dataclass. -/
structure Particle where
  position : Vec2
  start_position : Vec2
  velocity : Vec2
  frequency : ℚ
  phase : ℚ
  direction : ℤ
  color : Color
  time_elapsed : ℚ
  lifetime : ℚ
  size : ℚ
  surf : Option Surface
  gsurf : Option Surface
  alpha : ℚ
deriving DecidableEq

/-- An integer rectangle, modelling `pygame.Rect` (whose constructor truncates
    float arguments toward zero). -/
structure Rect where
  left : ℤ
  top : ℤ
  w : ℤ
  h : ℤ
deriving DecidableEq

/-- `Rect.collidepoint`: inside test, inclusive of the left/top edges and
    exclusive of the right/bottom edges. -/
def Rect.collidepoint (r : Rect) (v : Vec2) : Bool :=
  decide ((r.left : ℚ) ≤ v.x ∧ v.x < (r.left : ℚ) + (r.w : ℚ)
    ∧ (r.top : ℚ) ≤ v.y ∧ v.y < (r.top : ℚ) + (r.h : ℚ))

/-- The `room_rect` property: snap the emitter position down to the room grid
    (`position // dimensions * dimensions`) and size the rectangle to the room
    dimensions. -/
def roomRect (pos dims : Vec2) : Rect :=
  { left := pyInt (pyFloorDiv pos.x dims.x * dims.x)
    top := pyInt (pyFloorDiv pos.y dims.y * dims.y)
    w := pyInt dims.x
    h := pyInt dims.y }

/-- The state of a `ParticleEmitter` object. -/
structure Emitter where
  position : Vec2
  size : Vec2
  dimensions : Vec2
  particles : List Particle
  spawn_timer : ℚ
  master_clock : ℚ
  time_elapsed : ℚ
  blit_list : List (Option Surface × Vec2)
  glow_blit_list : List (Surface × Vec2)
  particle_count : ℕ
  is_active : Bool
  p_base : ParticleBaseSettings

/-- The random draws `__spawn_particle` consumes for one particle.
    `ux, uy, uf, udev` are the unit draws in [0,1) behind the four
    `random.uniform` calls; `phase` is the drawn phase itself, passed through
    because its Python upper bound `2π` is irrational; `dirx`/`diry` model the
    two `random.choice([-1, 1])` coin flips (`true` picks −1). -/
structure SpawnDraws where
  ux : ℚ
  uy : ℚ
  uf : ℚ
  phase : ℚ
  dirx : Bool
  diry : Bool
  udev : ℚ

/-- `random.uniform(a, b)` applied to a unit draw `u`: `a + (b - a) * u`. -/
def uniform (a b u : ℚ) : ℚ := a + (b - a) * u

/-- `ParticleEmitter.__spawn_particle`: randomize position inside the spawn
    region, frequency, phase and velocity, eagerly fetch and tint a cached
    shape for the RECT/CIRCLE kinds, and build the particle record. -/
def spawn_particle (cfg : ParticleBaseSettings) (pos size : Vec2) (d : SpawnDraws) :
    Except String Particle :=
  let rnd_x := uniform 0 size.x d.ux
  let rnd_y := uniform 0 size.y d.uy
  let pos_x := pos.x + rnd_x
  let pos_y := pos.y + rnd_y
  let frequency := uniform (3/10) (6/10) d.uf
  let random_lifetime_deviation : ℚ := 0
  let rnd_x_dir : ℤ := if cfg.random_x_dir then (if d.dirx then -1 else 1) else 1
  let rnd_y_dir : ℤ := if cfg.random_y_dir then (if d.diry then -1 else 1) else 1
  let rnd_x_deviation := uniform 0 cfg.random_velocity_deviation d.udev
  let v : Vec2 := ⟨cfg.particle_velocity_x * (rnd_x_dir : ℚ) + rnd_x_deviation,
                   cfg.particle_velocity_y * (rnd_y_dir : ℚ)⟩
  let psurfE : Except String (Option Surface) :=
    match cfg.particle_type with
    | .RECT =>
      match _get_rect_surface cfg.start_size with
      | .error e => .error e
      | .ok s => .ok (some { s with fill := cfg.color_start })
    | .CIRCLE =>
      match _get_circle_surface cfg.start_size with
      | .error e => .error e
      | .ok s => .ok (some { s with fill := cfg.color_start })
    | _ => .ok none
  match psurfE with
  | .error e => .error e
  | .ok psurf =>
    .ok { position := ⟨pos_x, pos_y⟩
          start_position := ⟨pos_x, pos_y⟩
          velocity := v
          frequency := frequency
          phase := d.phase
          direction := 1
          color := cfg.color_start
          time_elapsed := 0
          lifetime := cfg.lifetime - random_lifetime_deviation
          size := (cfg.start_size : ℚ)
          surf := psurf
          gsurf := none
          alpha := (cfg.start_alpha : ℚ) }

/-- `ParticleEmitter.__spawn_particle_rate` / `spawn_particle_group`: spawn `n`
    particles, appending each to the live list and bumping the spawn counter.
    `idx` indexes into the stream of per-particle random draws. -/
def spawnLoop (cfg : ParticleBaseSettings) (pos size : Vec2) (sdraws : ℕ → SpawnDraws) :
    ℕ → ℕ → List Particle → ℕ → Except String (List Particle × ℕ × ℕ)
  | idx, 0, ps, count => .ok (ps, count, idx)
  | idx, n + 1, ps, count =>
    match spawn_particle cfg pos size (sdraws idx) with
    | .error e => .error e
    | .ok p => spawnLoop cfg pos size sdraws (idx + 1) n (ps ++ [p]) (count + 1)

/-- `ParticleEmitter.__update_auto`: once the spawn timer has reached the
    configured delay, draw `random.randint(0, 100)` (inclusive of both ends);
    if the draw is below `particle_chance`, spawn `spawn_rate` particles and
    reset the timer.  The integer draw is the caller-supplied `gate`. -/
def update_auto (e : Emitter) (gate : ℕ) (sdraws : ℕ → SpawnDraws) : Except String Emitter :=
  if e.p_base.spawn_delay ≤ e.spawn_timer then
    if (gate : ℚ) < e.p_base.particle_chance then
      match spawnLoop e.p_base e.position e.size sdraws 0 e.p_base.spawn_rate.toNat
          e.particles e.particle_count with
      | .error e => .error e
      | .ok (ps, count, _) =>
        .ok { e with particles := ps, particle_count := count, spawn_timer := 0 }
    else .ok e
  else .ok e

/-- The position-integration part of the `__update_particles` loop body: per
    axis, either the sinusoidal offset driven by the emitter's global clock or
    plain `velocity * dt`. -/
def integrate (cfg : ParticleBaseSettings) (sinf : ℚ → ℚ) (eTime dt : ℚ)
    (p : Particle) : Particle :=
  let x' := if cfg.sin_x then
      p.position.x + (p.direction : ℚ) * (sinf (eTime * p.frequency + p.phase) * 1 / 8)
    else p.position.x + p.velocity.x * dt
  let y' := if cfg.sin_y then
      p.position.y + (p.direction : ℚ) * (sinf (eTime * p.frequency + p.phase) * 1 / 8)
    else p.position.y + p.velocity.y * dt
  { p with position := ⟨x', y'⟩ }

/-- The glow fill colour: each RGB channel pre-multiplied by `alpha / 255`,
    passed to `fill` as a 3-tuple (so the fill colour's own alpha is 255). -/
def glowFill (c : Color) (alpha : ℚ) : Color :=
  { r := pyInt ((c.r : ℚ) * (alpha / 255))
    g := pyInt ((c.g : ℚ) * (alpha / 255))
    b := pyInt ((c.b : ℚ) * (alpha / 255))
    a := 255 }

/-- The shape-resync part of the `__update_particles` loop body: refetch a
    cache entry sized `clamp(int(size), 1, 10)`, tint it and set its alpha;
    when `glow_size > 0` additionally fetch the glow shape, whose size jitter
    `random.choice([random_glow, -random_glow])` consumes the glow draw at
    index `gidx` (`true` picks `random_glow`).  LINE and ANIMATION leave both
    surfaces unset. -/
def shapeFor (cfg : ParticleBaseSettings) (gdraws : ℕ → Bool) (gidx : ℕ) (p : Particle) :
    Except String (Option Surface × Option Surface × ℕ) :=
  match cfg.particle_type with
  | .RECT =>
    match _get_rect_surface (clamp (pyInt p.size) 1 10) with
    | .error e => .error e
    | .ok s =>
      let psurf : Surface := { s with fill := p.color, alpha := some p.alpha }
      if 0 < cfg.glow_size then
        match _get_rect_surface (clamp (pyInt (p.size + (cfg.glow_size : ℚ) +
            ((if gdraws gidx then cfg.random_glow else -cfg.random_glow : ℤ) : ℚ))) 1 10) with
        | .error e => .error e
        | .ok g => .ok (some psurf, some { g with fill := glowFill p.color p.alpha }, gidx + 1)
      else .ok (some psurf, none, gidx)
  | .CIRCLE =>
    match _get_circle_surface (clamp (pyInt p.size) 1 10) with
    | .error e => .error e
    | .ok s =>
      let psurf : Surface := { s with fill := p.color, alpha := some p.alpha }
      if 0 < cfg.glow_size then
        match _get_circle_surface (clamp (pyInt (p.size + (cfg.glow_size : ℚ) +
            ((if gdraws gidx then cfg.random_glow else -cfg.random_glow : ℤ) : ℚ))) 1 10) with
        | .error e => .error e
        | .ok g => .ok (some psurf, some { g with fill := glowFill p.color p.alpha }, gidx + 1)
      else .ok (some psurf, none, gidx)
  | _ => .ok (none, none, gidx)

/-- The index of the first list element equal to `x` (what `list.remove`
    searches for; Python compares dataclass instances field by field). -/
def pyFindIdx (x : Particle) : List Particle → Option ℕ
  | [] => none
  | y :: ys => if y = x then some 0 else (pyFindIdx x ys).map (· + 1)

/-- Python `list.remove(x)`: delete the first element equal to `x`, returning
    the shortened list and the deleted index; `none` when `x` is absent (the
    ValueError case, which `__update_particles` swallows). -/
def pyRemove (l : List Particle) (x : Particle) : Option (List Particle × ℕ) :=
  match pyFindIdx x l with
  | some j => some (l.eraseIdx j, j)
  | none => none

/-- Lines 274–290 of the loop body: integrate the position, then advance the
    particle's age by the clamped per-frame delta `max(dt, 1/240)`. -/
def ageStep (cfg : ParticleBaseSettings) (sinf : ℚ → ℚ) (eTime dt : ℚ)
    (p : Particle) : Particle :=
  let p1 := integrate cfg sinf eTime dt p
  { p1 with time_elapsed := p1.time_elapsed + max dt (1/240) }

/-- Lines 298–301 of the loop body: re-lerp colour (per channel), size and
    alpha from the particle's current values toward the configured end values
    by the factor `t`. -/
def interpStep (cfg : ParticleBaseSettings) (t : ℚ) (p : Particle) : Particle :=
  { p with color := interpolate_color p.color cfg.color_end t
           size := lerp p.size (cfg.end_size : ℚ) t
           alpha := lerp p.alpha (cfg.end_alpha : ℚ) t }

/-- The `for particle in self.particles:` loop of `__update_particles`,
    iterated with Python's list-iterator semantics: the index advances by one
    each step over the collection as it is being mutated, so removing the
    current element shifts its successor under the just-advanced index and
    that successor is skipped.  One step: integrate position and advance age
    (`ageStep`; the object mutation writes through to the list), attempt
    `list.remove` when the age has reached the lifetime (a failed removal is
    the swallowed ValueError), interpolate colour/size/alpha with
    `t = (time_elapsed / lifetime)^2` (`interpStep`, applied to the object
    whether or not it was just removed), resync the shapes, and append
    `(surf, position)` to the frame's blit list.  `fuel` only bounds the
    recursion: each step grows `i` by one while the list never grows, so the
    initial list length (what `update_particles` passes) is always enough. -/
def update_loop (cfg : ParticleBaseSettings) (sinf : ℚ → ℚ) (gdraws : ℕ → Bool)
    (eTime dt : ℚ) :
    ℕ → ℕ → List Particle → List (Option Surface × Vec2) → ℕ →
    Except String (List Particle × List (Option Surface × Vec2) × ℕ)
  | 0, _, ps, blit, gidx => .ok (ps, blit, gidx)
  | fuel + 1, i, ps, blit, gidx =>
    if h : i < ps.length then
      let p2 := ageStep cfg sinf eTime dt (ps.get ⟨i, h⟩)
      let ps2 := ps.set i p2
      let rem : List Particle × Option ℕ :=
        if p2.lifetime ≤ p2.time_elapsed then
          match pyRemove ps2 p2 with
          | some (l, j) => (l, if j = i then none else some (i - 1))
          | none => (ps2, some i)
        else (ps2, some i)
      match pyDiv p2.time_elapsed p2.lifetime with
      | .error e => .error e
      | .ok dq =>
        match shapeFor cfg gdraws gidx (interpStep cfg (dq ^ 2) p2) with
        | .error e => .error e
        | .ok (psurf, gsurf, gidx') =>
          let p4 := { interpStep cfg (dq ^ 2) p2 with surf := psurf, gsurf := gsurf }
          let ps4 := match rem.2 with
            | some k => rem.1.set k p4
            | none => rem.1
          update_loop cfg sinf gdraws eTime dt fuel (i + 1) ps4
            (blit ++ [(psurf, p4.position)]) gidx'
    else .ok (ps, blit, gidx)

/-- `ParticleEmitter.__update_particles`: first drop every particle whose
    (previous-frame) position lies outside the current room rectangle, then
    run the mutating per-particle loop. -/
def update_particles (cfg : ParticleBaseSettings) (sinf : ℚ → ℚ) (gdraws : ℕ → Bool)
    (pos dims : Vec2) (eTime dt : ℚ) (ps : List Particle) :
    Except String (List Particle × List (Option Surface × Vec2) × ℕ) :=
  let kept := ps.filter (fun p => (roomRect pos dims).collidepoint p.position)
  update_loop cfg sinf gdraws eTime dt kept.length 0 kept [] 0

/-- `ParticleEmitter.update(dt)`: advance the emitter clock and spawn timer,
    clear the frame's blit lists, run the spawn scheduler when active (AUTO
    spawns on a timer, EVENT does nothing), then update the particles. -/
def ParticleEmitter.update (sinf : ℚ → ℚ) (e : Emitter) (dt : ℚ) (gate : ℕ)
    (sdraws : ℕ → SpawnDraws) (gdraws : ℕ → Bool) : Except String Emitter :=
  let e1 := { e with time_elapsed := e.time_elapsed + dt
                     spawn_timer := e.spawn_timer + dt
                     blit_list := []
                     glow_blit_list := [] }
  let spawned : Except String Emitter :=
    if e1.is_active then
      match e1.p_base.spawn_type with
      | .AUTO => update_auto e1 gate sdraws
      | .EVENT => .ok e1
    else .ok e1
  match spawned with
  | .error msg => .error msg
  | .ok e2 =>
    match update_particles e2.p_base sinf gdraws e2.position e2.dimensions
        e2.time_elapsed dt e2.particles with
    | .error msg => .error msg
    | .ok r => .ok { e2 with particles := r.1, blit_list := r.2.1 }

/-- One line-kind particle's segment in `render`: normalize the velocity by
    its Euclidean length `sqrt(vx² + vy²)` (raising ZeroDivisionError when the
    length is zero) and extend from the position by `size`; both endpoints are
    shifted by the render offset.  The drawn colour is the particle's. -/
def lineSeg (sqrtf : ℚ → ℚ) (offset : Vec2) (p : Particle) :
    Except String (Color × Vec2 × Vec2) :=
  let velocity_length := sqrtf (p.velocity.x ^ 2 + p.velocity.y ^ 2)
  match pyDiv p.velocity.x velocity_length with
  | .error e => .error e
  | .ok direction_x =>
    match pyDiv p.velocity.y velocity_length with
    | .error e => .error e
    | .ok direction_y =>
      let end_x := p.position.x + direction_x * p.size
      let end_y := p.position.y + direction_y * p.size
      .ok (p.color, Vec2.sub p.position offset, Vec2.sub ⟨end_x, end_y⟩ offset)

/-- The line segments drawn for every live particle, in order. -/
def lineSegs (sqrtf : ℚ → ℚ) (offset : Vec2) :
    List Particle → Except String (List (Color × Vec2 × Vec2))
  | [] => .ok []
  | p :: ps =>
    match lineSeg sqrtf offset p with
    | .error e => .error e
    | .ok s =>
      match lineSegs sqrtf offset ps with
      | .error e => .error e
      | .ok r => .ok (s :: r)

/-- What `render` hands to the rasterization backend: either the anti-aliased
    line segments of the LINE kind, or the whole frame batch submitted to the
    one `fblits` call for every other kind. -/
inductive RenderOut where
  | lines (segs : List (Color × Vec2 × Vec2))
  | batched (entries : List (Option Surface × Vec2))

/-- The full output of one `render` call: the primary draw plus the glow
    composites (one per particle carrying a glow surface, additively
    blended at `position - offset`). -/
structure RenderResult where
  out : RenderOut
  glow : List (Surface × Vec2)

/-- `ParticleEmitter.render(surf, offset)`. -/
def ParticleEmitter.render (sqrtf : ℚ → ℚ) (e : Emitter) (offset : Vec2) :
    Except String RenderResult :=
  let outE : Except String RenderOut :=
    if e.p_base.particle_type = .LINE then
      match lineSegs sqrtf offset e.particles with
      | .error msg => .error msg
      | .ok segs => .ok (.lines segs)
    else .ok (.batched e.blit_list)
  match outE with
  | .error msg => .error msg
  | .ok o =>
    .ok { out := o
          glow := e.particles.filterMap
            (fun p => p.gsurf.map (fun g => (g, Vec2.sub p.position offset))) }

/-- A Python attribute value as the configuration code passes them around. -/
inductive PyVal where
  | int (n : ℤ)
  | num (q : ℚ)
  | bool (b : Bool)
  | str (s : String)
  | rgba (c : Color)
deriving DecidableEq

/-- The declared field list of the `ParticleBaseSettings` dataclass, in
    declaration order (what `dataclasses.fields` yields). -/
def pbsFields : List String :=
  ["spawn_rate", "spawn_delay", "particle_chance", "color_start", "color_end",
   "gravity", "sin_x", "sin_y", "particle_velocity_x", "random_x_dir",
   "particle_velocity_y", "random_y_dir", "random_velocity_deviation",
   "lifetime", "start_size", "end_size", "particle_type", "spawn_type",
   "glow_size", "random_glow", "start_alpha", "end_alpha"]

/-- An object's attribute map, as `getattr`/`hasattr` see it. -/
def AttrMap : Type := String → Option PyVal

/-- `ParticleBaseSettings.__setattr__`: refuse any key outside the declared
    field set, otherwise store the value. -/
def pbsSetattr (m : AttrMap) (k : String) (v : PyVal) : Except String AttrMap :=
  if k ∈ pbsFields then
    .ok (fun k2 => if k2 = k then some v else m k2)
  else .error ("Cannot add new field " ++ k)

/-- The copy loop of `apply_config`: for each declared field, when the
    supplied config has it, copy it onto the live settings. -/
def copyFields (cfg : AttrMap) : List String → AttrMap → Except String AttrMap
  | [], m => .ok m
  | f :: rest, m =>
    match cfg f with
    | some v =>
      match pbsSetattr m f v with
      | .error e => .error e
      | .ok m2 => copyFields cfg rest m2
    | none => copyFields cfg rest m

/-- The `isinstance(..., str)` resolution step of `apply_config`: when the
    named colour field currently holds a string, replace it by the RGBA value
    the external `pygame.Color` constructor (`parse`) yields for it. -/
def resolveColorField (parse : String → Color) (m : AttrMap) (k : String) :
    Except String AttrMap :=
  match m k with
  | some (.str s) => pbsSetattr m k (.rgba (parse s))
  | _ => .ok m

/-- `ParticleEmitter.apply_config` at the attribute level: copy every declared
    field present on `cfg` onto the live settings, then resolve textual
    colour codes in `color_start` and `color_end`. -/
def apply_config (parse : String → Color) (base cfg : AttrMap) : Except String AttrMap :=
  match copyFields cfg pbsFields base with
  | .error e => .error e
  | .ok m1 =>
    match resolveColorField parse m1 "color_start" with
    | .error e => .error e
    | .ok m2 => resolveColorField parse m2 "color_end"

/-- Modelled from the spec (§4.2), for comparison with `apply_config`: every
    declared field present on `cfg` is copied field-by-field onto the live
    configuration, fields absent from the declared schema are ignored, and
    colour fields supplied as textual colour codes are resolved into RGBA. -/
def apply_config_spec (parse : String → Color) (base cfg : AttrMap) : AttrMap :=
  fun k =>
    let copied : Option PyVal :=
      if k ∈ pbsFields then
        match cfg k with
        | some v => some v
        | none => base k
      else base k
    if k = "color_start" ∨ k = "color_end" then
      match copied with
      | some (.str s) => some (.rgba (parse s))
      | v => v
    else copied

/-- A partial configuration at the declared field types (a caller-built
    settings object offered to `apply_config`; `none` marks a field the
    object does not carry). -/
structure SettingsPatch where
  spawn_rate : Option ℤ
  spawn_delay : Option ℚ
  particle_chance : Option ℚ
  color_start : Option Color
  color_end : Option Color
  gravity : Option ℚ
  sin_x : Option Bool
  sin_y : Option Bool
  particle_velocity_x : Option ℚ
  random_x_dir : Option Bool
  particle_velocity_y : Option ℚ
  random_y_dir : Option Bool
  random_velocity_deviation : Option ℚ
  lifetime : Option ℚ
  start_size : Option ℤ
  end_size : Option ℤ
  particle_type : Option PType
  spawn_type : Option SType
  glow_size : Option ℤ
  random_glow : Option ℤ
  start_alpha : Option ℤ
  end_alpha : Option ℤ

/-- `apply_config` at the declared field types: each declared field present on
    the patch overwrites the live value. -/
def applyPatch (base : ParticleBaseSettings) (c : SettingsPatch) : ParticleBaseSettings :=
  { spawn_rate := c.spawn_rate.getD base.spawn_rate
    spawn_delay := c.spawn_delay.getD base.spawn_delay
    particle_chance := c.particle_chance.getD base.particle_chance
    color_start := c.color_start.getD base.color_start
    color_end := c.color_end.getD base.color_end
    gravity := c.gravity.getD base.gravity
    sin_x := c.sin_x.getD base.sin_x
    sin_y := c.sin_y.getD base.sin_y
    particle_velocity_x := c.particle_velocity_x.getD base.particle_velocity_x
    random_x_dir := c.random_x_dir.getD base.random_x_dir
    particle_velocity_y := c.particle_velocity_y.getD base.particle_velocity_y
    random_y_dir := c.random_y_dir.getD base.random_y_dir
    random_velocity_deviation := c.random_velocity_deviation.getD base.random_velocity_deviation
    lifetime := c.lifetime.getD base.lifetime
    start_size := c.start_size.getD base.start_size
    end_size := c.end_size.getD base.end_size
    particle_type := c.particle_type.getD base.particle_type
    spawn_type := c.spawn_type.getD base.spawn_type
    glow_size := c.glow_size.getD base.glow_size
    random_glow := c.random_glow.getD base.random_glow
    start_alpha := c.start_alpha.getD base.start_alpha
    end_alpha := c.end_alpha.getD base.end_alpha }

/-- `ParticleEmitter.apply_config` as it acts on the emitter object: only the
    live settings are replaced; every other part of the emitter state, the
    particle collection included, is untouched. -/
def ParticleEmitter.apply_config (e : Emitter) (c : SettingsPatch) : Emitter :=
  { e with p_base := applyPatch e.p_base c }

/-! Helper lemmas. -/

@[simp] theorem integrate_start_position (cfg : ParticleBaseSettings) (sinf : ℚ → ℚ)
    (eTime dt : ℚ) (p : Particle) :
    (integrate cfg sinf eTime dt p).start_position = p.start_position := rfl

@[simp] theorem integrate_time_elapsed (cfg : ParticleBaseSettings) (sinf : ℚ → ℚ)
    (eTime dt : ℚ) (p : Particle) :
    (integrate cfg sinf eTime dt p).time_elapsed = p.time_elapsed := rfl

@[simp] theorem integrate_lifetime (cfg : ParticleBaseSettings) (sinf : ℚ → ℚ)
    (eTime dt : ℚ) (p : Particle) :
    (integrate cfg sinf eTime dt p).lifetime = p.lifetime := rfl

@[simp] theorem integrate_color_eq (cfg : ParticleBaseSettings) (sinf : ℚ → ℚ)
    (eTime dt : ℚ) (p : Particle) :
    (integrate cfg sinf eTime dt p).color = p.color := rfl

@[simp] theorem integrate_size (cfg : ParticleBaseSettings) (sinf : ℚ → ℚ)
    (eTime dt : ℚ) (p : Particle) :
    (integrate cfg sinf eTime dt p).size = p.size := rfl

@[simp] theorem integrate_alpha (cfg : ParticleBaseSettings) (sinf : ℚ → ℚ)
    (eTime dt : ℚ) (p : Particle) :
    (integrate cfg sinf eTime dt p).alpha = p.alpha := rfl

@[simp] theorem integrate_velocity (cfg : ParticleBaseSettings) (sinf : ℚ → ℚ)
    (eTime dt : ℚ) (p : Particle) :
    (integrate cfg sinf eTime dt p).velocity = p.velocity := rfl

@[simp] theorem ageStep_time_elapsed (cfg : ParticleBaseSettings) (sinf : ℚ → ℚ)
    (eTime dt : ℚ) (p : Particle) :
    (ageStep cfg sinf eTime dt p).time_elapsed = p.time_elapsed + max dt (1/240) := rfl

@[simp] theorem ageStep_lifetime (cfg : ParticleBaseSettings) (sinf : ℚ → ℚ)
    (eTime dt : ℚ) (p : Particle) :
    (ageStep cfg sinf eTime dt p).lifetime = p.lifetime := rfl

@[simp] theorem ageStep_start_position (cfg : ParticleBaseSettings) (sinf : ℚ → ℚ)
    (eTime dt : ℚ) (p : Particle) :
    (ageStep cfg sinf eTime dt p).start_position = p.start_position := rfl

@[simp] theorem ageStep_position (cfg : ParticleBaseSettings) (sinf : ℚ → ℚ)
    (eTime dt : ℚ) (p : Particle) :
    (ageStep cfg sinf eTime dt p).position = (integrate cfg sinf eTime dt p).position := rfl

@[simp] theorem ageStep_color (cfg : ParticleBaseSettings) (sinf : ℚ → ℚ)
    (eTime dt : ℚ) (p : Particle) :
    (ageStep cfg sinf eTime dt p).color = p.color := rfl

@[simp] theorem ageStep_size (cfg : ParticleBaseSettings) (sinf : ℚ → ℚ)
    (eTime dt : ℚ) (p : Particle) :
    (ageStep cfg sinf eTime dt p).size = p.size := rfl

@[simp] theorem ageStep_alpha (cfg : ParticleBaseSettings) (sinf : ℚ → ℚ)
    (eTime dt : ℚ) (p : Particle) :
    (ageStep cfg sinf eTime dt p).alpha = p.alpha := rfl

@[simp] theorem interpStep_color (cfg : ParticleBaseSettings) (t : ℚ) (p : Particle) :
    (interpStep cfg t p).color = interpolate_color p.color cfg.color_end t := rfl

@[simp] theorem interpStep_size (cfg : ParticleBaseSettings) (t : ℚ) (p : Particle) :
    (interpStep cfg t p).size = lerp p.size (cfg.end_size : ℚ) t := rfl

@[simp] theorem interpStep_alpha (cfg : ParticleBaseSettings) (t : ℚ) (p : Particle) :
    (interpStep cfg t p).alpha = lerp p.alpha (cfg.end_alpha : ℚ) t := rfl

@[simp] theorem interpStep_time_elapsed (cfg : ParticleBaseSettings) (t : ℚ) (p : Particle) :
    (interpStep cfg t p).time_elapsed = p.time_elapsed := rfl

@[simp] theorem interpStep_lifetime (cfg : ParticleBaseSettings) (t : ℚ) (p : Particle) :
    (interpStep cfg t p).lifetime = p.lifetime := rfl

@[simp] theorem interpStep_start_position (cfg : ParticleBaseSettings) (t : ℚ) (p : Particle) :
    (interpStep cfg t p).start_position = p.start_position := rfl

@[simp] theorem interpStep_position (cfg : ParticleBaseSettings) (t : ℚ) (p : Particle) :
    (interpStep cfg t p).position = p.position := rfl

theorem get_rect_surface_ok (c : ℤ) (h1 : 1 ≤ c) (h2 : c ≤ 10) :
    _get_rect_surface c = .ok ⟨.rect, c, whiteC, none⟩ := by
  interval_cases c <;> rfl

theorem get_circle_surface_ok (c : ℤ) (h1 : 1 ≤ c) (h2 : c ≤ 10) :
    _get_circle_surface c = .ok ⟨.circle, c, whiteC, none⟩ := by
  interval_cases c <;> rfl

theorem clamp_lower (v : ℤ) : 1 ≤ clamp v 1 10 := le_max_left _ _

theorem clamp_upper (v : ℤ) : clamp v 1 10 ≤ 10 :=
  max_le (by norm_num) (min_le_right _ _)

theorem shapeFor_ok (cfg : ParticleBaseSettings) (gdraws : ℕ → Bool) (gidx : ℕ)
    (p : Particle) : ∃ out, shapeFor cfg gdraws gidx p = .ok out := by
  unfold shapeFor
  cases htype : cfg.particle_type
  case RECT =>
    rw [get_rect_surface_ok _ (clamp_lower _) (clamp_upper _)]
    dsimp only
    by_cases hg : 0 < cfg.glow_size
    · rw [if_pos hg, get_rect_surface_ok _ (clamp_lower _) (clamp_upper _)]
      exact ⟨_, rfl⟩
    · rw [if_neg hg]; exact ⟨_, rfl⟩
  case CIRCLE =>
    rw [get_circle_surface_ok _ (clamp_lower _) (clamp_upper _)]
    dsimp only
    by_cases hg : 0 < cfg.glow_size
    · rw [if_pos hg, get_circle_surface_ok _ (clamp_lower _) (clamp_upper _)]
      exact ⟨_, rfl⟩
    · rw [if_neg hg]; exact ⟨_, rfl⟩
  case LINE => exact ⟨_, rfl⟩
  case ANIMATION => exact ⟨_, rfl⟩

theorem pyRemove_cons_self (x : Particle) (l : List Particle) :
    pyRemove (x :: l) x = some (l, 0) := by
  simp [pyRemove, pyFindIdx, List.eraseIdx]

theorem filter_singleton_of_pos (f : Particle → Bool) (p : Particle) (h : f p = true) :
    [p].filter f = [p] := by
  simp [List.filter, h]

/-- One frame on a single surviving particle: `update_particles` keeps it,
    with position integrated, age advanced by `max(dt, 1/240)`, and
    colour/size/alpha re-lerped from the current values with
    `t = (timeElapsed/lifetime)^2`, and queues its surface and new position
    into the draw batch. -/
theorem update_singleton_survive (cfg : ParticleBaseSettings) (sinf : ℚ → ℚ)
    (gdraws : ℕ → Bool) (pos dims : Vec2) (eTime dt : ℚ) (p : Particle)
    (hin : (roomRect pos dims).collidepoint p.position = true)
    (hlife : p.lifetime ≠ 0)
    (hlt : p.time_elapsed + max dt (1/240) < p.lifetime) :
    ∃ s g gi,
      shapeFor cfg gdraws 0
          (interpStep cfg (((p.time_elapsed + max dt (1/240)) / p.lifetime) ^ 2)
            (ageStep cfg sinf eTime dt p)) = .ok (s, g, gi) ∧
      update_particles cfg sinf gdraws pos dims eTime dt [p] =
        .ok ([{ interpStep cfg (((p.time_elapsed + max dt (1/240)) / p.lifetime) ^ 2)
                  (ageStep cfg sinf eTime dt p) with surf := s, gsurf := g }],
             [(s, (integrate cfg sinf eTime dt p).position)], gi) := by
  obtain ⟨⟨s, g, gi⟩, hshape⟩ := shapeFor_ok cfg gdraws 0
    (interpStep cfg (((p.time_elapsed + max dt (1/240)) / p.lifetime) ^ 2)
      (ageStep cfg sinf eTime dt p))
  refine ⟨s, g, gi, hshape, ?_⟩
  rw [update_particles, filter_singleton_of_pos _ _ hin]
  simp only [List.length_cons, List.length_nil]
  rw [update_loop]
  rw [dif_pos (by norm_num : (0 : ℕ) < [p].length)]
  simp only [List.get, List.set, ageStep_lifetime, ageStep_time_elapsed]
  rw [if_neg (not_le.mpr hlt)]
  rw [pyDiv, if_neg (by simpa using hlife)]
  simp only [ageStep_lifetime, ageStep_time_elapsed]
  rw [hshape]
  simp [update_loop]

/-- One frame on a single expiring particle: `update_particles` removes it
    from the live list the moment its advanced age reaches its lifetime, but
    the rest of the loop body still runs on the removed object — it is
    interpolated, a shape is fetched for it, and `(surf, position)` is still
    appended to the frame's draw batch. -/
theorem update_singleton_expire (cfg : ParticleBaseSettings) (sinf : ℚ → ℚ)
    (gdraws : ℕ → Bool) (pos dims : Vec2) (eTime dt : ℚ) (p : Particle)
    (hin : (roomRect pos dims).collidepoint p.position = true)
    (hlife : p.lifetime ≠ 0)
    (hge : p.lifetime ≤ p.time_elapsed + max dt (1/240)) :
    ∃ s g gi,
      shapeFor cfg gdraws 0
          (interpStep cfg (((p.time_elapsed + max dt (1/240)) / p.lifetime) ^ 2)
            (ageStep cfg sinf eTime dt p)) = .ok (s, g, gi) ∧
      update_particles cfg sinf gdraws pos dims eTime dt [p] =
        .ok ([], [(s, (integrate cfg sinf eTime dt p).position)], gi) := by
  obtain ⟨⟨s, g, gi⟩, hshape⟩ := shapeFor_ok cfg gdraws 0
    (interpStep cfg (((p.time_elapsed + max dt (1/240)) / p.lifetime) ^ 2)
      (ageStep cfg sinf eTime dt p))
  refine ⟨s, g, gi, hshape, ?_⟩
  rw [update_particles, filter_singleton_of_pos _ _ hin]
  simp only [List.length_cons, List.length_nil]
  rw [update_loop]
  rw [dif_pos (by norm_num : (0 : ℕ) < [p].length)]
  simp only [List.get, List.set, ageStep_lifetime, ageStep_time_elapsed]
  rw [if_pos hge, pyRemove_cons_self]
  rw [pyDiv, if_neg (by simpa using hlife)]
  simp only [ageStep_lifetime, ageStep_time_elapsed]
  rw [hshape]
  simp [update_loop]

theorem filter_pair_of_pos (f : Particle → Bool) (p q : Particle)
    (hp : f p = true) (hq : f q = true) : [p, q].filter f = [p, q] := by
  simp [List.filter, hp, hq]

/-- One frame on a two-particle list whose first particle expires: the first
    is removed mid-iteration (its blit entry still queued), the index hops
    over the second particle, and the loop ends — the second particle comes
    out exactly as it went in. -/
theorem update_pair_expire_skips_next (cfg : ParticleBaseSettings) (sinf : ℚ → ℚ)
    (gdraws : ℕ → Bool) (pos dims : Vec2) (eTime dt : ℚ) (p q : Particle)
    (hinp : (roomRect pos dims).collidepoint p.position = true)
    (hinq : (roomRect pos dims).collidepoint q.position = true)
    (hlife : p.lifetime ≠ 0)
    (hge : p.lifetime ≤ p.time_elapsed + max dt (1/240)) :
    ∃ (s : Option Surface) (gi : ℕ),
      update_particles cfg sinf gdraws pos dims eTime dt [p, q] =
        .ok ([q], [(s, (integrate cfg sinf eTime dt p).position)], gi) := by
  obtain ⟨⟨s, g, gi⟩, hshape⟩ := shapeFor_ok cfg gdraws 0
    (interpStep cfg (((p.time_elapsed + max dt (1/240)) / p.lifetime) ^ 2)
      (ageStep cfg sinf eTime dt p))
  refine ⟨s, gi, ?_⟩
  rw [update_particles, filter_pair_of_pos _ _ _ hinp hinq]
  simp only [List.length_cons, List.length_nil]
  rw [update_loop]
  rw [dif_pos (by norm_num : (0 : ℕ) < [p, q].length)]
  simp only [List.get, List.set, ageStep_lifetime, ageStep_time_elapsed]
  rw [if_pos hge, pyRemove_cons_self]
  rw [pyDiv, if_neg (by simpa using hlife)]
  simp only [ageStep_lifetime, ageStep_time_elapsed]
  rw [hshape]
  simp [update_loop]

theorem inv_set {P : Particle → Prop} {l : List Particle} {i : ℕ} {a : Particle}
    (hl : ∀ x ∈ l, P x) (ha : P a) : ∀ x ∈ l.set i a, P x := by
  intro x hx
  rcases List.mem_or_eq_of_mem_set hx with hx' | rfl
  · exact hl x hx'
  · exact ha

theorem inv_eraseIdx {P : Particle → Prop} {l : List Particle} {j : ℕ}
    (hl : ∀ x ∈ l, P x) : ∀ x ∈ l.eraseIdx j, P x :=
  fun x hx => hl x ((List.eraseIdx_sublist l j).subset hx)

theorem pyRemove_eraseIdx (l : List Particle) (x : Particle) (l' : List Particle) (j : ℕ)
    (h : pyRemove l x = some (l', j)) : l' = l.eraseIdx j := by
  unfold pyRemove at h
  cases hf : pyFindIdx x l with
  | none => rw [hf] at h; cases h
  | some j' =>
    rw [hf] at h
    cases h
    rfl

/-- The per-particle loop never raises as long as no live particle has a zero
    lifetime: the shape sizes are clamped into the cache's 1..10 range before
    every fetch, and the only other failure point is the division by
    `lifetime`. -/
theorem update_loop_ok (cfg : ParticleBaseSettings) (sinf : ℚ → ℚ) (gdraws : ℕ → Bool)
    (eTime dt : ℚ) :
    ∀ (fuel i : ℕ) (ps : List Particle) (blit : List (Option Surface × Vec2)) (gidx : ℕ),
      (∀ p ∈ ps, p.lifetime ≠ 0) →
      ∃ r, update_loop cfg sinf gdraws eTime dt fuel i ps blit gidx = .ok r ∧
        (∀ p ∈ r.1, p.lifetime ≠ 0) := by
  intro fuel
  induction fuel with
  | zero => intro i ps blit gidx hps; exact ⟨_, rfl, hps⟩
  | succ n ih =>
    intro i ps blit gidx hps
    rw [update_loop]
    by_cases h : i < ps.length
    · rw [dif_pos h]
      dsimp only
      have hplife : (ps.get ⟨i, h⟩).lifetime ≠ 0 := hps _ (List.get_mem ps i h)
      have hset : ∀ x ∈ ps.set i (ageStep cfg sinf eTime dt (ps.get ⟨i, h⟩)),
          x.lifetime ≠ 0 := inv_set hps (by simpa using hplife)
      split
      · next e heq =>
          rw [pyDiv, if_neg (by simpa using hplife)] at heq
          cases heq
      · next dq heq =>
          split
          · next e heq2 =>
              obtain ⟨out, hout⟩ := shapeFor_ok cfg gdraws gidx _
              rw [hout] at heq2
              cases heq2
          · next s g gi' heq2 =>
              apply ih
              by_cases hexp : (ageStep cfg sinf eTime dt (ps.get ⟨i, h⟩)).lifetime ≤
                  (ageStep cfg sinf eTime dt (ps.get ⟨i, h⟩)).time_elapsed
              · rw [if_pos hexp]
                rcases hrem : pyRemove (ps.set i (ageStep cfg sinf eTime dt (ps.get ⟨i, h⟩)))
                    (ageStep cfg sinf eTime dt (ps.get ⟨i, h⟩)) with _ | ⟨l, j⟩
                · dsimp only
                  exact inv_set hset (by simpa using hplife)
                · obtain rfl := pyRemove_eraseIdx _ _ _ _ hrem
                  dsimp only
                  by_cases hj : j = i
                  · rw [if_pos hj]
                    exact inv_eraseIdx hset
                  · rw [if_neg hj]
                    dsimp only
                    exact inv_set (inv_eraseIdx hset) (by simpa using hplife)
              · rw [if_neg hexp]
                exact inv_set hset (by simpa using hplife)
    · rw [dif_neg h]
      exact ⟨_, rfl, hps⟩

/-- No step of the per-particle loop ever writes a particle's
    `start_position`: every particle of the output list carries the
    `start_position` of some input particle. -/
theorem update_loop_start_positions (cfg : ParticleBaseSettings) (sinf : ℚ → ℚ)
    (gdraws : ℕ → Bool) (eTime dt : ℚ) :
    ∀ (fuel i : ℕ) (ps : List Particle) (blit : List (Option Surface × Vec2)) (gidx : ℕ)
      (r : List Particle × List (Option Surface × Vec2) × ℕ),
      update_loop cfg sinf gdraws eTime dt fuel i ps blit gidx = .ok r →
      ∀ q ∈ r.1, ∃ p ∈ ps, q.start_position = p.start_position := by
  intro fuel
  induction fuel with
  | zero =>
    intro i ps blit gidx r hloop
    cases hloop
    exact fun q hq => ⟨q, hq, rfl⟩
  | succ n ih =>
    intro i ps blit gidx r hloop
    rw [update_loop] at hloop
    by_cases h : i < ps.length
    · rw [dif_pos h] at hloop
      dsimp only at hloop
      split at hloop
      · cases hloop
      · next dq heq =>
          split at hloop
          · cases hloop
          · next s g gi' heq2 =>
              have hbase : ∀ x ∈ ps, ∃ p ∈ ps, x.start_position = p.start_position :=
                fun x hx => ⟨x, hx, rfl⟩
              have hget : ps.get ⟨i, h⟩ ∈ ps := List.get_mem ps i h
              have hset : ∀ x ∈ ps.set i (ageStep cfg sinf eTime dt (ps.get ⟨i, h⟩)),
                  ∃ p ∈ ps, x.start_position = p.start_position :=
                inv_set hbase ⟨ps.get ⟨i, h⟩, hget, by simp⟩
              have hstep := ih _ _ _ _ _ hloop
              have hps4 : ∀ x ∈ (match
                  (if (ageStep cfg sinf eTime dt (ps.get ⟨i, h⟩)).lifetime ≤
                      (ageStep cfg sinf eTime dt (ps.get ⟨i, h⟩)).time_elapsed then
                    match pyRemove (ps.set i (ageStep cfg sinf eTime dt (ps.get ⟨i, h⟩)))
                        (ageStep cfg sinf eTime dt (ps.get ⟨i, h⟩)) with
                    | some (l, j) => (l, if j = i then none else some (i - 1))
                    | none => (ps.set i (ageStep cfg sinf eTime dt (ps.get ⟨i, h⟩)), some i)
                  else (ps.set i (ageStep cfg sinf eTime dt (ps.get ⟨i, h⟩)), some i)).2 with
                  | some k =>
                    (if (ageStep cfg sinf eTime dt (ps.get ⟨i, h⟩)).lifetime ≤
                        (ageStep cfg sinf eTime dt (ps.get ⟨i, h⟩)).time_elapsed then
                      match pyRemove (ps.set i (ageStep cfg sinf eTime dt (ps.get ⟨i, h⟩)))
                          (ageStep cfg sinf eTime dt (ps.get ⟨i, h⟩)) with
                      | some (l, j) => (l, if j = i then none else some (i - 1))
                      | none => (ps.set i (ageStep cfg sinf eTime dt (ps.get ⟨i, h⟩)), some i)
                    else (ps.set i (ageStep cfg sinf eTime dt (ps.get ⟨i, h⟩)), some i)).1.set k
                      { interpStep cfg (dq ^ 2) (ageStep cfg sinf eTime dt (ps.get ⟨i, h⟩)) with
                        surf := s, gsurf := g }
                  | none =>
                    (if (ageStep cfg sinf eTime dt (ps.get ⟨i, h⟩)).lifetime ≤
                        (ageStep cfg sinf eTime dt (ps.get ⟨i, h⟩)).time_elapsed then
                      match pyRemove (ps.set i (ageStep cfg sinf eTime dt (ps.get ⟨i, h⟩)))
                          (ageStep cfg sinf eTime dt (ps.get ⟨i, h⟩)) with
                      | some (l, j) => (l, if j = i then none else some (i - 1))
                      | none => (ps.set i (ageStep cfg sinf eTime dt (ps.get ⟨i, h⟩)), some i)
                    else (ps.set i (ageStep cfg sinf eTime dt (ps.get ⟨i, h⟩)), some i)).1),
                  ∃ p ∈ ps, x.start_position = p.start_position := by
                by_cases hexp : (ageStep cfg sinf eTime dt (ps.get ⟨i, h⟩)).lifetime ≤
                    (ageStep cfg sinf eTime dt (ps.get ⟨i, h⟩)).time_elapsed
                · rw [if_pos hexp]
                  rcases hrem : pyRemove (ps.set i (ageStep cfg sinf eTime dt (ps.get ⟨i, h⟩)))
                      (ageStep cfg sinf eTime dt (ps.get ⟨i, h⟩)) with _ | ⟨l, j⟩
                  · dsimp only
                    exact inv_set hset ⟨ps.get ⟨i, h⟩, hget, by simp⟩
                  · obtain rfl := pyRemove_eraseIdx _ _ _ _ hrem
                    dsimp only
                    by_cases hj : j = i
                    · rw [if_pos hj]
                      exact inv_eraseIdx hset
                    · rw [if_neg hj]
                      dsimp only
                      exact inv_set (inv_eraseIdx hset) ⟨ps.get ⟨i, h⟩, hget, by simp⟩
                · rw [if_neg hexp]
                  exact inv_set hset ⟨ps.get ⟨i, h⟩, hget, by simp⟩
              intro q hq
              obtain ⟨p', hp', hsp⟩ := hstep q hq
              obtain ⟨p0, hp0, hsp0⟩ := hps4 p' hp'
              exact ⟨p0, hp0, hsp.trans hsp0⟩
    · rw [dif_neg h] at hloop
      cases hloop
      exact fun q hq => ⟨q, hq, rfl⟩

/-- `__spawn_particle` succeeds whenever the configured start size lies in the
    cache range, and the new particle starts at the randomized position inside
    the spawn region, with `start_position = position`, age zero and the
    configured lifetime (minus the always-zero deviation). -/
theorem spawn_particle_ok (cfg : ParticleBaseSettings) (pos size : Vec2) (d : SpawnDraws)
    (h1 : 1 ≤ cfg.start_size) (h2 : cfg.start_size ≤ 10) :
    ∃ p, spawn_particle cfg pos size d = .ok p ∧
      p.position = ⟨pos.x + uniform 0 size.x d.ux, pos.y + uniform 0 size.y d.uy⟩ ∧
      p.start_position = p.position ∧
      p.time_elapsed = 0 ∧
      p.lifetime = cfg.lifetime := by
  unfold spawn_particle
  cases htype : cfg.particle_type
  case RECT =>
    rw [get_rect_surface_ok _ h1 h2]
    exact ⟨_, rfl, rfl, rfl, rfl, by simp⟩
  case CIRCLE =>
    rw [get_circle_surface_ok _ h1 h2]
    exact ⟨_, rfl, rfl, rfl, rfl, by simp⟩
  case LINE => exact ⟨_, rfl, rfl, rfl, rfl, by simp⟩
  case ANIMATION => exact ⟨_, rfl, rfl, rfl, rfl, by simp⟩

/-- `__spawn_particle_rate`: spawning `n` particles appends exactly `n` new
    particles, advances the spawn counter by exactly `n`, and consumes `n`
    draw-stream entries; each new particle has age zero and the configured
    lifetime. -/
theorem spawnLoop_ok (cfg : ParticleBaseSettings) (pos size : Vec2)
    (sdraws : ℕ → SpawnDraws)
    (h1 : 1 ≤ cfg.start_size) (h2 : cfg.start_size ≤ 10) :
    ∀ (n idx : ℕ) (ps : List Particle) (count : ℕ),
      ∃ ps', spawnLoop cfg pos size sdraws idx n ps count =
          .ok (ps ++ ps', count + n, idx + n) ∧
        ps'.length = n ∧
        (∀ p ∈ ps', p.lifetime = cfg.lifetime ∧ p.time_elapsed = 0) := by
  intro n
  induction n with
  | zero =>
    intro idx ps count
    exact ⟨[], by simp [spawnLoop], rfl, by simp⟩
  | succ m ih =>
    intro idx ps count
    obtain ⟨p, hp, hpos, hsp, hte, hlife⟩ := spawn_particle_ok cfg pos size (sdraws idx) h1 h2
    obtain ⟨ps', hloop, hlen, hinv⟩ := ih (idx + 1) (ps ++ [p]) (count + 1)
    refine ⟨p :: ps', ?_, by simp [hlen], ?_⟩
    · rw [spawnLoop, hp]
      dsimp only
      rw [hloop]
      have ha : (ps ++ [p]) ++ ps' = ps ++ p :: ps' := by simp
      have hb : count + 1 + m = count + (m + 1) := by omega
      have hc : idx + 1 + m = idx + (m + 1) := by omega
      rw [ha, hb, hc]
    · intro q hq
      rcases List.mem_cons.mp hq with rfl | hq'
      · exact ⟨hlife, hte⟩
      · exact hinv q hq'

theorem lineSeg_zero_velocity (sqrtf : ℚ → ℚ) (offset : Vec2) (p : Particle)
    (h0 : sqrtf 0 = 0) (hv : p.velocity = ⟨0, 0⟩) :
    lineSeg sqrtf offset p = .error "float division by zero" := by
  unfold lineSeg
  rw [hv]
  norm_num [pyDiv, h0]

theorem lineSeg_ok_of_nonzero (sqrtf : ℚ → ℚ) (offset : Vec2) (p : Particle)
    (hpos : ∀ x : ℚ, 0 < x → 0 < sqrtf x) (hv : p.velocity ≠ ⟨0, 0⟩) :
    ∃ seg, lineSeg sqrtf offset p = .ok seg := by
  have hcomp : p.velocity.x ≠ 0 ∨ p.velocity.y ≠ 0 := by
    by_contra hc
    push_neg at hc
    apply hv
    cases hp : p.velocity with
    | mk x y =>
      rw [hp] at hc
      simp only at hc
      rw [hc.1, hc.2]
  have hsum : 0 < p.velocity.x ^ 2 + p.velocity.y ^ 2 := by
    rcases hcomp with hx | hy
    · have := pow_two_pos_of_ne_zero hx
      nlinarith [sq_nonneg p.velocity.y]
    · have := pow_two_pos_of_ne_zero hy
      nlinarith [sq_nonneg p.velocity.x]
  have hlen : sqrtf (p.velocity.x ^ 2 + p.velocity.y ^ 2) ≠ 0 :=
    ne_of_gt (hpos _ hsum)
  unfold lineSeg
  simp only [pyDiv, hlen, if_false, ite_false, if_neg hlen]
  exact ⟨_, rfl⟩

theorem lineSegs_error_of_mem (sqrtf : ℚ → ℚ) (offset : Vec2) (l : List Particle)
    (p : Particle) (hp : p ∈ l) (msg : String)
    (herr : lineSeg sqrtf offset p = .error msg) :
    ∃ m, lineSegs sqrtf offset l = .error m := by
  induction l with
  | nil => cases hp
  | cons a l ih =>
    rcases List.mem_cons.mp hp with rfl | hp'
    · exact ⟨msg, by rw [lineSegs, herr]⟩
    · cases hseg : lineSeg sqrtf offset a with
      | error m => exact ⟨m, by rw [lineSegs, hseg]⟩
      | ok s =>
        obtain ⟨m, hm⟩ := ih hp'
        exact ⟨m, by rw [lineSegs, hseg, hm]⟩

theorem copyFields_char (cfg : AttrMap) :
    ∀ (L : List String) (m : AttrMap), (∀ f ∈ L, f ∈ pbsFields) →
      ∃ m', copyFields cfg L m = .ok m' ∧
        ∀ k, m' k = if k ∈ L ∧ (cfg k).isSome then cfg k else m k := by
  intro L
  induction L with
  | nil =>
    intro m _
    exact ⟨m, rfl, fun k => by simp⟩
  | cons f rest ih =>
    intro m hL
    have hf : f ∈ pbsFields := hL f (by simp)
    have hrest : ∀ x ∈ rest, x ∈ pbsFields := fun x hx => hL x (List.mem_cons_of_mem _ hx)
    cases hcf : cfg f with
    | none =>
      obtain ⟨m', hm', hchar⟩ := ih m hrest
      refine ⟨m', by rw [copyFields, hcf]; exact hm', ?_⟩
      intro k
      rw [hchar k]
      by_cases hkf : k = f
      · subst hkf
        simp [hcf]
      · simp [List.mem_cons, hkf]
    | some v =>
      obtain ⟨m', hm', hchar⟩ := ih (fun k2 => if k2 = f then some v else m k2) hrest
      refine ⟨m', ?_, ?_⟩
      · rw [copyFields, hcf]
        unfold pbsSetattr
        dsimp only
        rw [if_pos hf]
        exact hm'
      · intro k
        rw [hchar k]
        by_cases hkf : k = f
        · subst hkf
          by_cases hkr : k ∈ rest <;> simp [hkr, hcf]
        · simp [List.mem_cons, hkf]

theorem resolveColorField_char (parse : String → Color) (m : AttrMap) (k : String)
    (hk : k ∈ pbsFields) :
    ∃ m2, resolveColorField parse m k = .ok m2 ∧
      ∀ k2, m2 k2 = if k2 = k then
          (match m k with
           | some (.str s) => some (.rgba (parse s))
           | v => v)
        else m k2 := by
  unfold resolveColorField
  cases hv : m k with
  | none => exact ⟨m, rfl, fun k2 => by by_cases h : k2 = k <;> simp [h, hv]⟩
  | some v =>
    cases v with
    | str s =>
      dsimp only
      unfold pbsSetattr
      rw [if_pos hk]
      exact ⟨_, rfl, fun k2 => by by_cases h : k2 = k <;> simp [h, hv]⟩
    | int n => exact ⟨m, rfl, fun k2 => by by_cases h : k2 = k <;> simp [h, hv]⟩
    | num q => exact ⟨m, rfl, fun k2 => by by_cases h : k2 = k <;> simp [h, hv]⟩
    | bool b => exact ⟨m, rfl, fun k2 => by by_cases h : k2 = k <;> simp [h, hv]⟩
    | rgba c => exact ⟨m, rfl, fun k2 => by by_cases h : k2 = k <;> simp [h, hv]⟩

theorem update_particles_ok (cfg : ParticleBaseSettings) (sinf : ℚ → ℚ)
    (gdraws : ℕ → Bool) (pos dims : Vec2) (eTime dt : ℚ) (ps : List Particle)
    (hps : ∀ p ∈ ps, p.lifetime ≠ 0) :
    ∃ r, update_particles cfg sinf gdraws pos dims eTime dt ps = .ok r := by
  unfold update_particles
  obtain ⟨r, hr, _⟩ := update_loop_ok cfg sinf gdraws eTime dt
    (ps.filter (fun p => (roomRect pos dims).collidepoint p.position)).length 0
    (ps.filter (fun p => (roomRect pos dims).collidepoint p.position)) [] 0
    (fun p hp => hps p (List.mem_of_mem_filter hp))
  exact ⟨r, hr⟩

/-! Claim theorems. -/

theorem room_origin_64_contains_11 :
    (roomRect ⟨0, 0⟩ ⟨64, 64⟩).collidepoint ⟨1, 1⟩ = true := by
  simp only [roomRect, Rect.collidepoint, pyFloorDiv, pyInt, decide_eq_true_eq]
  norm_num

theorem room_origin_64_contains_22 :
    (roomRect ⟨0, 0⟩ ⟨64, 64⟩).collidepoint ⟨2, 2⟩ = true := by
  simp only [roomRect, Rect.collidepoint, pyFloorDiv, pyInt, decide_eq_true_eq]
  norm_num

/-- C2, counterexample.  A single live particle (lifetime 1, age 0) updated
    with `dt = 1`: its age reaches its lifetime and the update does remove it
    from the live set immediately — but, against the claim, the frame's draw
    batch still receives an entry for it (a shape was fetched and the entry
    carries the removed particle's integrated position), so the removal does
    not exclude the particle from the remaining update work of that frame. -/
theorem lifetime_removal_cex :
    ∃ (s : Option Surface) (gi : ℕ),
      update_particles defaultSettings (fun _ => 0) (fun _ => false) ⟨0, 0⟩ ⟨64, 64⟩ 0 1
          [⟨⟨1, 1⟩, ⟨1, 1⟩, ⟨0, 0⟩, 1/2, 1, 1, whiteC, 0, 1, 1, none, none, 255⟩] =
        .ok ([], [(s, ⟨1, 1⟩)], gi) := by
  obtain ⟨s, g, gi, hsh, heq⟩ := update_singleton_expire defaultSettings (fun _ => 0)
    (fun _ => false) ⟨0, 0⟩ ⟨64, 64⟩ 0 1
    ⟨⟨1, 1⟩, ⟨1, 1⟩, ⟨0, 0⟩, 1/2, 1, 1, whiteC, 0, 1, 1, none, none, 255⟩
    room_origin_64_contains_11 (by norm_num)
    (by simp only; linarith [le_max_left (1 : ℚ) (1/240)])
  refine ⟨s, gi, ?_⟩
  rw [heq]
  have : (integrate defaultSettings (fun _ => 0) 0 1
      ⟨⟨1, 1⟩, ⟨1, 1⟩, ⟨0, 0⟩, 1/2, 1, 1, whiteC, 0, 1, 1, none, none, 255⟩).position =
      (⟨1, 1⟩ : Vec2) := by
    simp [integrate, defaultSettings]
  rw [this]

/-- C2 (amended).  When a live particle's timeElapsed reaches or exceeds its
    lifetime during the per-frame update, it is removed from the live set
    immediately (it is absent from the surviving list of this very frame) —
    but the removal does not exclude it from the remaining update work of the
    same frame: the loop body still interpolates its attributes, still
    fetches a shape for it, and still queues an entry for it into that
    frame's draw batch; only from the next frame on is it excluded. -/
theorem lifetime_removal_immediate_but_not_excluding (cfg : ParticleBaseSettings)
    (sinf : ℚ → ℚ) (gdraws : ℕ → Bool) (pos dims : Vec2) (eTime dt : ℚ) (p : Particle)
    (hin : (roomRect pos dims).collidepoint p.position = true)
    (hlife : p.lifetime ≠ 0)
    (hge : p.lifetime ≤ p.time_elapsed + max dt (1/240)) :
    ∃ s g gi,
      shapeFor cfg gdraws 0
          (interpStep cfg (((p.time_elapsed + max dt (1/240)) / p.lifetime) ^ 2)
            (ageStep cfg sinf eTime dt p)) = .ok (s, g, gi) ∧
      update_particles cfg sinf gdraws pos dims eTime dt [p] =
        .ok ([], [(s, (integrate cfg sinf eTime dt p).position)], gi) :=
  update_singleton_expire cfg sinf gdraws pos dims eTime dt p hin hlife hge

theorem lifetime_removal_immediate_but_not_excluding_witness :
    (roomRect ⟨0, 0⟩ ⟨64, 64⟩).collidepoint
        (⟨⟨3, 3⟩, ⟨3, 3⟩, ⟨0, 0⟩, 1/2, 1, 1, whiteC, 0, 1, 1, none, none, 255⟩ :
          Particle).position = true ∧
    ((⟨⟨3, 3⟩, ⟨3, 3⟩, ⟨0, 0⟩, 1/2, 1, 1, whiteC, 0, 1, 1, none, none, 255⟩ :
        Particle).lifetime ≠ 0) ∧
    (∃ s g gi,
      shapeFor defaultSettings (fun _ => false) 0
          (interpStep defaultSettings (((0 + max 2 (1/240)) / 1) ^ 2)
            (ageStep defaultSettings (fun _ => 0) 0 2
              ⟨⟨3, 3⟩, ⟨3, 3⟩, ⟨0, 0⟩, 1/2, 1, 1, whiteC, 0, 1, 1, none, none, 255⟩)) =
          .ok (s, g, gi) ∧
      update_particles defaultSettings (fun _ => 0) (fun _ => false) ⟨0, 0⟩ ⟨64, 64⟩ 0 2
          [⟨⟨3, 3⟩, ⟨3, 3⟩, ⟨0, 0⟩, 1/2, 1, 1, whiteC, 0, 1, 1, none, none, 255⟩] =
        .ok ([], [(s, (integrate defaultSettings (fun _ => 0) 0 2
            ⟨⟨3, 3⟩, ⟨3, 3⟩, ⟨0, 0⟩, 1/2, 1, 1, whiteC, 0, 1, 1, none, none, 255⟩).position)],
          gi)) := by
  have hin : (roomRect ⟨0, 0⟩ ⟨64, 64⟩).collidepoint (⟨3, 3⟩ : Vec2) = true := by
    simp only [roomRect, Rect.collidepoint, pyFloorDiv, pyInt, decide_eq_true_eq]
    norm_num
  exact ⟨hin, by norm_num,
    lifetime_removal_immediate_but_not_excluding defaultSettings (fun _ => 0)
      (fun _ => false) ⟨0, 0⟩ ⟨64, 64⟩ 0 2
      ⟨⟨3, 3⟩, ⟨3, 3⟩, ⟨0, 0⟩, 1/2, 1, 1, whiteC, 0, 1, 1, none, none, 255⟩
      hin (by norm_num) (by simp only; linarith [le_max_left (2 : ℚ) (1/240)])⟩

/-- C9.  During one update, when the particle at the current index is removed
    (its age reached its lifetime), the element that followed it slides under
    the already-advanced iteration index and is skipped for the rest of that
    update: the output list is exactly `[q]` with `q` untouched — position not
    integrated, age not advanced, colour/size/alpha not interpolated — the
    draw batch holds only the removed particle's entry, and `q` remains in
    the live set for subsequent frames. -/
theorem removal_skips_next_particle (cfg : ParticleBaseSettings) (sinf : ℚ → ℚ)
    (gdraws : ℕ → Bool) (pos dims : Vec2) (eTime dt : ℚ) (p q : Particle)
    (hinp : (roomRect pos dims).collidepoint p.position = true)
    (hinq : (roomRect pos dims).collidepoint q.position = true)
    (hlife : p.lifetime ≠ 0)
    (hge : p.lifetime ≤ p.time_elapsed + max dt (1/240)) :
    ∃ (s : Option Surface) (gi : ℕ),
      update_particles cfg sinf gdraws pos dims eTime dt [p, q] =
        .ok ([q], [(s, (integrate cfg sinf eTime dt p).position)], gi) :=
  update_pair_expire_skips_next cfg sinf gdraws pos dims eTime dt p q hinp hinq hlife hge

theorem removal_skips_next_particle_witness :
    (roomRect ⟨0, 0⟩ ⟨64, 64⟩).collidepoint (⟨1, 1⟩ : Vec2) = true ∧
    (roomRect ⟨0, 0⟩ ⟨64, 64⟩).collidepoint (⟨2, 2⟩ : Vec2) = true ∧
    ((1 : ℚ) ≠ 0) ∧
    (∃ (s : Option Surface) (gi : ℕ),
      update_particles defaultSettings (fun _ => 0) (fun _ => false) ⟨0, 0⟩ ⟨64, 64⟩ 0 2
          [⟨⟨1, 1⟩, ⟨1, 1⟩, ⟨0, 0⟩, 1/2, 1, 1, whiteC, 0, 1, 1, none, none, 255⟩,
           ⟨⟨2, 2⟩, ⟨2, 2⟩, ⟨0, 0⟩, 1/2, 1, 1, whiteC, 5, 100, 1, none, none, 255⟩] =
        .ok ([⟨⟨2, 2⟩, ⟨2, 2⟩, ⟨0, 0⟩, 1/2, 1, 1, whiteC, 5, 100, 1, none, none, 255⟩],
             [(s, (integrate defaultSettings (fun _ => 0) 0 2
                ⟨⟨1, 1⟩, ⟨1, 1⟩, ⟨0, 0⟩, 1/2, 1, 1, whiteC, 0, 1, 1, none, none, 255⟩).position)],
             gi)) :=
  ⟨room_origin_64_contains_11, room_origin_64_contains_22, by norm_num,
    removal_skips_next_particle defaultSettings (fun _ => 0) (fun _ => false)
      ⟨0, 0⟩ ⟨64, 64⟩ 0 2
      ⟨⟨1, 1⟩, ⟨1, 1⟩, ⟨0, 0⟩, 1/2, 1, 1, whiteC, 0, 1, 1, none, none, 255⟩
      ⟨⟨2, 2⟩, ⟨2, 2⟩, ⟨0, 0⟩, 1/2, 1, 1, whiteC, 5, 100, 1, none, none, 255⟩
      room_origin_64_contains_11 room_origin_64_contains_22 (by norm_num)
      (by simp only; linarith [le_max_left (2 : ℚ) (1/240)])⟩

/-- C5, counterexample.  Two live particles, updated with `dt = 0`: the first
    expires and is removed mid-iteration, so the second is skipped — it comes
    out of the update with `timeElapsed` still `5`, an increase of `0`,
    although `max(dt, 1/240) = 1/240 ≠ 0`.  So it is not true that every live
    particle's `timeElapsed` grows by exactly `max(dt, 1/240)` (nor by at
    least `1/240`) on every update. -/
theorem age_floor_cex :
    ∃ (s : Option Surface) (gi : ℕ),
      update_particles defaultSettings (fun _ => 0) (fun _ => false) ⟨0, 0⟩ ⟨64, 64⟩ 0 0
          [⟨⟨1, 1⟩, ⟨1, 1⟩, ⟨0, 0⟩, 1/2, 1, 1, whiteC, 0, 1/240, 1, none, none, 255⟩,
           ⟨⟨2, 2⟩, ⟨2, 2⟩, ⟨0, 0⟩, 1/2, 1, 1, whiteC, 5, 100, 1, none, none, 255⟩] =
        .ok ([⟨⟨2, 2⟩, ⟨2, 2⟩, ⟨0, 0⟩, 1/2, 1, 1, whiteC, 5, 100, 1, none, none, 255⟩],
             [(s, ⟨1, 1⟩)], gi) ∧
      (⟨⟨2, 2⟩, ⟨2, 2⟩, ⟨0, 0⟩, 1/2, 1, 1, whiteC, 5, 100, 1, none, none, 255⟩ :
        Particle).time_elapsed = 5 ∧
      max (0 : ℚ) (1/240) ≠ 0 := by
  obtain ⟨s, gi, heq⟩ := update_pair_expire_skips_next defaultSettings (fun _ => 0)
    (fun _ => false) ⟨0, 0⟩ ⟨64, 64⟩ 0 0
    ⟨⟨1, 1⟩, ⟨1, 1⟩, ⟨0, 0⟩, 1/2, 1, 1, whiteC, 0, 1/240, 1, none, none, 255⟩
    ⟨⟨2, 2⟩, ⟨2, 2⟩, ⟨0, 0⟩, 1/2, 1, 1, whiteC, 5, 100, 1, none, none, 255⟩
    room_origin_64_contains_11 room_origin_64_contains_22 (by norm_num)
    (by simp only; linarith [le_max_right (0 : ℚ) (1/240)])
  refine ⟨s, gi, ?_, rfl, ?_⟩
  · rw [heq]
    have : (integrate defaultSettings (fun _ => 0) 0 0
        ⟨⟨1, 1⟩, ⟨1, 1⟩, ⟨0, 0⟩, 1/2, 1, 1, whiteC, 0, 1/240, 1, none, none, 255⟩).position =
        (⟨1, 1⟩ : Vec2) := by
      simp [integrate, defaultSettings]
    rw [this]
  · exact ne_of_gt (lt_of_lt_of_le (by norm_num) (le_max_right (0 : ℚ) (1/240)))

/-- C5 (amended).  Every particle that the per-frame loop actually processes
    has its `timeElapsed` advanced by exactly `max(dt, 1/240)`, which is at
    least `1/240` whatever `dt` is, so a processed particle's age never
    decreases and grows by at least `1/240` even when `dt = 0`.  (A live
    particle skipped because its predecessor in the collection was removed
    that frame — see the counterexample — keeps its age unchanged, so the
    per-update lower bound holds only for processed particles.) -/
theorem age_advance_for_processed_particle (cfg : ParticleBaseSettings) (sinf : ℚ → ℚ)
    (gdraws : ℕ → Bool) (pos dims : Vec2) (eTime dt : ℚ) (p : Particle)
    (hin : (roomRect pos dims).collidepoint p.position = true)
    (hlife : p.lifetime ≠ 0)
    (hlt : p.time_elapsed + max dt (1/240) < p.lifetime) :
    ∃ r, update_particles cfg sinf gdraws pos dims eTime dt [p] = .ok r ∧
      r.1.length = 1 ∧
      ∀ p' ∈ r.1,
        p'.time_elapsed = p.time_elapsed + max dt (1/240) ∧
        p.time_elapsed ≤ p'.time_elapsed ∧
        p.time_elapsed + 1/240 ≤ p'.time_elapsed := by
  obtain ⟨s, g, gi, hsh, heq⟩ := update_singleton_survive cfg sinf gdraws pos dims
    eTime dt p hin hlife hlt
  refine ⟨_, heq, rfl, ?_⟩
  intro p' hp'
  rw [List.mem_singleton] at hp'
  subst hp'
  have hte : ({ interpStep cfg (((p.time_elapsed + max dt (1/240)) / p.lifetime) ^ 2)
      (ageStep cfg sinf eTime dt p) with surf := s, gsurf := g } : Particle).time_elapsed =
      p.time_elapsed + max dt (1/240) := by
    simp
  refine ⟨hte, ?_, ?_⟩ <;> rw [hte] <;> linarith [le_max_right dt (1/240 : ℚ)]

theorem age_advance_for_processed_particle_witness :
    (roomRect ⟨0, 0⟩ ⟨64, 64⟩).collidepoint (⟨1, 1⟩ : Vec2) = true ∧
    ((1 : ℚ) ≠ 0) ∧
    ((0 : ℚ) + max 0 (1/240) < 1) ∧
    (∃ r, update_particles defaultSettings (fun _ => 0) (fun _ => false) ⟨0, 0⟩ ⟨64, 64⟩ 0 0
        [⟨⟨1, 1⟩, ⟨1, 1⟩, ⟨0, 0⟩, 1/2, 1, 1, whiteC, 0, 1, 1, none, none, 255⟩] = .ok r ∧
      r.1.length = 1 ∧
      ∀ p' ∈ r.1,
        p'.time_elapsed = 0 + max 0 (1/240) ∧
        (0 : ℚ) ≤ p'.time_elapsed ∧
        (0 : ℚ) + 1/240 ≤ p'.time_elapsed) := by
  have hlt : (0 : ℚ) + max 0 (1/240) < 1 := by
    rw [zero_add]
    exact max_lt (by norm_num) (by norm_num)
  exact ⟨room_origin_64_contains_11, by norm_num, hlt,
    age_advance_for_processed_particle defaultSettings (fun _ => 0) (fun _ => false)
      ⟨0, 0⟩ ⟨64, 64⟩ 0 0
      ⟨⟨1, 1⟩, ⟨1, 1⟩, ⟨0, 0⟩, 1/2, 1, 1, whiteC, 0, 1, 1, none, none, 255⟩
      room_origin_64_contains_11 (by norm_num) hlt⟩

/-- C4, counterexample.  The attribute interpolation is not applied to every
    live particle on every update frame: with `dt = 0`, the first of two live
    particles expires and is removed mid-iteration, so the second — still
    live afterwards — is skipped and comes out exactly unchanged, its alpha
    still 7, although the claimed re-lerp
    `lerp(7, endAlpha, t)` with `endAlpha = 255` and
    `t = ((5 + max(0, 1/240)) / 100)^2 > 0` differs from 7 (and likewise for
    its colour and size, which also stay at their old values). -/
theorem interpolation_skipped_particle_cex :
    ∃ (s : Option Surface) (gi : ℕ),
      update_particles defaultSettings (fun _ => 0) (fun _ => false) ⟨0, 0⟩ ⟨64, 64⟩ 0 0
          [⟨⟨1, 1⟩, ⟨1, 1⟩, ⟨0, 0⟩, 1/2, 1, 1, whiteC, 0, 1/240, 1, none, none, 255⟩,
           ⟨⟨2, 2⟩, ⟨2, 2⟩, ⟨0, 0⟩, 1/2, 1, 1, ⟨10, 20, 30, 40⟩, 5, 100, 5, none, none, 7⟩] =
        .ok ([⟨⟨2, 2⟩, ⟨2, 2⟩, ⟨0, 0⟩, 1/2, 1, 1, ⟨10, 20, 30, 40⟩, 5, 100, 5, none, none, 7⟩],
             [(s, ⟨1, 1⟩)], gi) ∧
      (⟨⟨2, 2⟩, ⟨2, 2⟩, ⟨0, 0⟩, 1/2, 1, 1, ⟨10, 20, 30, 40⟩, 5, 100, 5, none, none, 7⟩ :
        Particle).alpha = 7 ∧
      lerp 7 (defaultSettings.end_alpha : ℚ)
        (((5 + max (0 : ℚ) (1/240)) / 100) ^ 2) ≠ 7 := by
  obtain ⟨s, gi, heq⟩ := update_pair_expire_skips_next defaultSettings (fun _ => 0)
    (fun _ => false) ⟨0, 0⟩ ⟨64, 64⟩ 0 0
    ⟨⟨1, 1⟩, ⟨1, 1⟩, ⟨0, 0⟩, 1/2, 1, 1, whiteC, 0, 1/240, 1, none, none, 255⟩
    ⟨⟨2, 2⟩, ⟨2, 2⟩, ⟨0, 0⟩, 1/2, 1, 1, ⟨10, 20, 30, 40⟩, 5, 100, 5, none, none, 7⟩
    room_origin_64_contains_11 room_origin_64_contains_22 (by norm_num)
    (by simp only; linarith [le_max_right (0 : ℚ) (1/240)])
  refine ⟨s, gi, ?_, rfl, ?_⟩
  · rw [heq]
    have : (integrate defaultSettings (fun _ => 0) 0 0
        ⟨⟨1, 1⟩, ⟨1, 1⟩, ⟨0, 0⟩, 1/2, 1, 1, whiteC, 0, 1/240, 1, none, none, 255⟩).position =
        (⟨1, 1⟩ : Vec2) := by
      simp [integrate, defaultSettings]
    rw [this]
  · have hm : max (0 : ℚ) (1/240) = 1/240 := max_eq_right (by norm_num)
    simp only [lerp, hm, defaultSettings]
    norm_num

/-- C4 (amended).  For a particle the per-frame loop actually processes, the
    attribute step computes `t = (timeElapsed/lifetime)^2` from the
    just-advanced age and re-lerps colour (per channel, through
    `interpolate_color`, alpha channel included), size and alpha from the
    particle's current — already partially interpolated — values toward the
    configured end values by the factor `t`; the sources of the lerps are
    the particle's own current fields, not any recorded spawn value.  (A
    live particle skipped because the preceding collection element was
    removed that frame — see the counterexample — receives no interpolation
    that frame, so the claim's universal quantification over all live
    particles holds only for processed ones.) -/
theorem interpolation_relerps_current_values (cfg : ParticleBaseSettings) (sinf : ℚ → ℚ)
    (gdraws : ℕ → Bool) (pos dims : Vec2) (eTime dt : ℚ) (p : Particle)
    (hin : (roomRect pos dims).collidepoint p.position = true)
    (hlife : p.lifetime ≠ 0)
    (hlt : p.time_elapsed + max dt (1/240) < p.lifetime) :
    ∃ r, update_particles cfg sinf gdraws pos dims eTime dt [p] = .ok r ∧
      r.1.length = 1 ∧
      ∀ p' ∈ r.1,
        p'.color = interpolate_color p.color cfg.color_end
          (((p.time_elapsed + max dt (1/240)) / p.lifetime) ^ 2) ∧
        p'.size = lerp p.size (cfg.end_size : ℚ)
          (((p.time_elapsed + max dt (1/240)) / p.lifetime) ^ 2) ∧
        p'.alpha = lerp p.alpha (cfg.end_alpha : ℚ)
          (((p.time_elapsed + max dt (1/240)) / p.lifetime) ^ 2) := by
  obtain ⟨s, g, gi, hsh, heq⟩ := update_singleton_survive cfg sinf gdraws pos dims
    eTime dt p hin hlife hlt
  refine ⟨_, heq, rfl, ?_⟩
  intro p' hp'
  rw [List.mem_singleton] at hp'
  subst hp'
  refine ⟨by simp, by simp, by simp⟩

theorem interpolation_relerps_current_values_witness :
    (roomRect ⟨0, 0⟩ ⟨64, 64⟩).collidepoint (⟨2, 2⟩ : Vec2) = true ∧
    ((8 : ℚ) ≠ 0) ∧
    ((0 : ℚ) + max 0 (1/240) < 8) ∧
    (∃ r, update_particles defaultSettings (fun _ => 0) (fun _ => false) ⟨0, 0⟩ ⟨64, 64⟩ 0 0
        [⟨⟨2, 2⟩, ⟨2, 2⟩, ⟨0, 0⟩, 1/2, 1, 1, ⟨10, 20, 30, 40⟩, 0, 8, 5, none, none, 7⟩] =
          .ok r ∧
      r.1.length = 1 ∧
      ∀ p' ∈ r.1,
        p'.color = interpolate_color ⟨10, 20, 30, 40⟩ defaultSettings.color_end
          (((0 + max 0 (1/240)) / 8) ^ 2) ∧
        p'.size = lerp 5 (defaultSettings.end_size : ℚ) (((0 + max 0 (1/240)) / 8) ^ 2) ∧
        p'.alpha = lerp 7 (defaultSettings.end_alpha : ℚ) (((0 + max 0 (1/240)) / 8) ^ 2)) := by
  have hlt : (0 : ℚ) + max 0 (1/240) < 8 := by
    rw [zero_add]
    exact max_lt (by norm_num) (by norm_num)
  exact ⟨room_origin_64_contains_22, by norm_num, hlt,
    interpolation_relerps_current_values defaultSettings (fun _ => 0) (fun _ => false)
      ⟨0, 0⟩ ⟨64, 64⟩ 0 0
      ⟨⟨2, 2⟩, ⟨2, 2⟩, ⟨0, 0⟩, 1/2, 1, 1, ⟨10, 20, 30, 40⟩, 0, 8, 5, none, none, 7⟩
      room_origin_64_contains_22 (by norm_num) hlt⟩

/-- The scenario configuration of the spec's AUTOMATIC-mode test:
    `spawnDelay = 0.1`, `particleChance = 100`, `spawnRate = 3`. -/
def scenarioSettings : ParticleBaseSettings :=
  { defaultSettings with
    spawn_delay := 1/10
    particle_chance := 100
    spawn_rate := 3 }

/-- A fresh emitter carrying `scenarioSettings`. -/
def scenarioEmitter : Emitter :=
  { position := ⟨0, 0⟩
    size := ⟨0, 0⟩
    dimensions := ⟨64, 64⟩
    particles := []
    spawn_timer := 0
    master_clock := 0
    time_elapsed := 0
    blit_list := []
    glow_blit_list := []
    particle_count := 0
    is_active := true
    p_base := scenarioSettings }

/-- C3, counterexample.  `random.randint(0, 100)` is inclusive of both ends,
    so 100 is a possible draw.  With `spawnDelay = 0.1`, `particleChance =
    100`, `spawnRate = 3`, `dt = 0.1`, the timer threshold is reached on this
    update, yet the draw 100 fails the test `100 < particleChance`, the
    chance gate blocks the spawn, and the update produces 0 new particles
    instead of the 3 the claim promises for every possible draw. -/
theorem auto_gate_blocks_at_draw_100_cex :
    ∃ e', ParticleEmitter.update (fun _ => 0) scenarioEmitter
        (1/10) 100 (fun _ => ⟨0, 0, 0, 0, false, false, 0⟩) (fun _ => false) = .ok e' ∧
      e'.particle_count = 0 ∧ e'.particles = [] := by
  unfold ParticleEmitter.update update_auto scenarioEmitter scenarioSettings
  dsimp only
  rw [if_pos (by norm_num : (1/10 : ℚ) ≤ 0 + 1/10)]
  rw [if_neg (by push_cast; norm_num : ¬ (((100 : ℕ) : ℚ) < 100))]
  exact ⟨_, rfl, rfl, rfl⟩

/-- C3 (amended).  In AUTOMATIC mode, an update whose accumulated
    `spawnTimer` has reached `spawnDelay` draws one uniform random integer
    from `random.randint(0, 100)` — inclusive of both ends, so from [0,100],
    not [0,100) — and spawns `spawnRate` particles and resets the timer
    exactly when the draw is strictly below `particleChance`; otherwise the
    timer keeps accumulating and nothing spawns.  With `particleChance = 100`
    the gate therefore blocks exactly on the draw 100 (probability 1/101 per
    attempt), so the scenario `spawnDelay=0.1, particleChance=100,
    spawnRate=3, dt=0.1` yields exactly 3 new particles on an update
    precisely when the draw is below 100. -/
theorem auto_spawn_chance_gate (sinf : ℚ → ℚ) (e : Emitter) (dt : ℚ) (gate : ℕ)
    (sdraws : ℕ → SpawnDraws) (gdraws : ℕ → Bool)
    (hauto : e.p_base.spawn_type = .AUTO)
    (hact : e.is_active = true)
    (hempty : e.particles = [])
    (h1 : 1 ≤ e.p_base.start_size) (h2 : e.p_base.start_size ≤ 10)
    (hlife : e.p_base.lifetime ≠ 0)
    (hgate : gate ≤ 100)
    (htimer : e.p_base.spawn_delay ≤ e.spawn_timer + dt) :
    ((gate : ℚ) < e.p_base.particle_chance →
      ∃ e', ParticleEmitter.update sinf e dt gate sdraws gdraws = .ok e' ∧
        e'.particle_count = e.particle_count + e.p_base.spawn_rate.toNat ∧
        e'.spawn_timer = 0) ∧
    (¬ (gate : ℚ) < e.p_base.particle_chance →
      ∃ e', ParticleEmitter.update sinf e dt gate sdraws gdraws = .ok e' ∧
        e'.particle_count = e.particle_count ∧
        e'.particles = [] ∧
        e'.spawn_timer = e.spawn_timer + dt) := by
  constructor
  · intro hc
    simp only [ParticleEmitter.update, update_auto, hact, hauto, hempty,
      eq_self_iff_true, if_true]
    rw [if_pos htimer, if_pos hc]
    obtain ⟨ps', hloop, hlen, hinv⟩ := spawnLoop_ok e.p_base e.position e.size sdraws
      h1 h2 e.p_base.spawn_rate.toNat 0 [] e.particle_count
    rw [hloop]
    dsimp only
    obtain ⟨r, hr⟩ := update_particles_ok e.p_base sinf gdraws e.position e.dimensions
      (e.time_elapsed + dt) dt ([] ++ ps')
      (fun p hp => by
        have := hinv p (by simpa using hp)
        rw [this.1]
        exact hlife)
    rw [hr]
    exact ⟨_, rfl, rfl, rfl⟩
  · intro hc
    simp only [ParticleEmitter.update, update_auto, hact, hauto, hempty,
      eq_self_iff_true, if_true]
    rw [if_pos htimer, if_neg hc]
    have hr : update_particles e.p_base sinf gdraws e.position e.dimensions
        (e.time_elapsed + dt) dt [] = .ok ([], [], 0) := rfl
    dsimp only
    rw [hr]
    exact ⟨_, rfl, rfl, rfl, rfl⟩

theorem auto_spawn_chance_gate_witness :
    (((50 : ℕ) : ℚ) < scenarioEmitter.p_base.particle_chance) ∧
    (((50 : ℕ) : ℚ) < scenarioEmitter.p_base.particle_chance →
      ∃ e', ParticleEmitter.update (fun _ => 0) scenarioEmitter
          (1/10) 50 (fun _ => ⟨0, 0, 0, 0, false, false, 0⟩) (fun _ => false) = .ok e' ∧
        e'.particle_count = scenarioEmitter.particle_count +
          scenarioEmitter.p_base.spawn_rate.toNat ∧
        e'.spawn_timer = 0) := by
  have h50 : ((50 : ℕ) : ℚ) < scenarioEmitter.p_base.particle_chance := by
    show ((50 : ℕ) : ℚ) < 100
    push_cast
    norm_num
  refine ⟨h50, ?_⟩
  exact (auto_spawn_chance_gate (fun _ => 0) scenarioEmitter
    (1/10) 50 (fun _ => ⟨0, 0, 0, 0, false, false, 0⟩) (fun _ => false)
    rfl rfl rfl (by norm_num [scenarioEmitter, scenarioSettings, defaultSettings])
    (by norm_num [scenarioEmitter, scenarioSettings, defaultSettings])
    (by norm_num [scenarioEmitter, scenarioSettings, defaultSettings])
    (by norm_num)
    (by norm_num [scenarioEmitter, scenarioSettings])).1

/-- C6, counterexample.  With the emitter's default spawn size `(0, 0)`,
    `random.uniform(0, 0)` returns 0 and the spawned particle's position is
    exactly the emitter position — which does not lie in the then-empty
    half-open box `[position, position + size)`: its x-coordinate is not
    `< position.x + 0`.  For positive sizes the claimed bounds do hold. -/
theorem spawn_region_cex :
    ∃ p, spawn_particle defaultSettings ⟨5, 7⟩ ⟨0, 0⟩ ⟨0, 0, 0, 0, false, false, 0⟩ = .ok p ∧
      p.position = ⟨5, 7⟩ ∧ ¬ (p.position.x < 5 + 0) := by
  obtain ⟨p, hp, hpos, _, _, _⟩ := spawn_particle_ok defaultSettings ⟨5, 7⟩ ⟨0, 0⟩
    ⟨0, 0, 0, 0, false, false, 0⟩ (by norm_num [defaultSettings]) (by norm_num [defaultSettings])
  have hpx : p.position = (⟨5, 7⟩ : Vec2) := by
    rw [hpos]
    simp only [uniform]
    norm_num
  refine ⟨p, hp, hpx, ?_⟩
  rw [hpx]
  norm_num

/-- C6 (amended).  A spawned particle's `startPosition` equals its spawn
    `position` and is never modified afterwards: every particle surviving an
    `update_particles` frame carries the `start_position` of some input
    particle (the per-frame loop never writes that field), `apply_config`
    leaves the particle collection untouched (and `render` only reads the
    emitter).  The spawn position lies in the half-open rectangle
    `[emitterPosition, emitterPosition + emitterSize)` componentwise for
    every unit draw in [0,1) — provided both components of `emitterSize` are
    positive; with a zero-sized component the coordinate equals the
    emitter's own coordinate (see the counterexample). -/
theorem spawn_in_region_and_start_position_immutable
    (cfg : ParticleBaseSettings) (pos size : Vec2) (d : SpawnDraws)
    (h1 : 1 ≤ cfg.start_size) (h2 : cfg.start_size ≤ 10)
    (hux0 : 0 ≤ d.ux) (hux1 : d.ux < 1) (huy0 : 0 ≤ d.uy) (huy1 : d.uy < 1)
    (hsx : 0 < size.x) (hsy : 0 < size.y) :
    (∃ p, spawn_particle cfg pos size d = .ok p ∧
      p.start_position = p.position ∧
      pos.x ≤ p.position.x ∧ p.position.x < pos.x + size.x ∧
      pos.y ≤ p.position.y ∧ p.position.y < pos.y + size.y) ∧
    (∀ (sinf : ℚ → ℚ) (gdraws : ℕ → Bool) (pos2 dims : Vec2) (eTime dt : ℚ)
      (ps : List Particle) (r : List Particle × List (Option Surface × Vec2) × ℕ),
        update_particles cfg sinf gdraws pos2 dims eTime dt ps = .ok r →
        ∀ q ∈ r.1, ∃ p0 ∈ ps, q.start_position = p0.start_position) ∧
    (∀ (e : Emitter) (c : SettingsPatch),
      (ParticleEmitter.apply_config e c).particles = e.particles) := by
  refine ⟨?_, ?_, fun e c => rfl⟩
  · obtain ⟨p, hp, hpos, hsp, _, _⟩ := spawn_particle_ok cfg pos size d h1 h2
    have hx0 : 0 ≤ uniform 0 size.x d.ux := by
      unfold uniform
      nlinarith
    have hx1 : uniform 0 size.x d.ux < size.x := by
      unfold uniform
      nlinarith
    have hy0 : 0 ≤ uniform 0 size.y d.uy := by
      unfold uniform
      nlinarith
    have hy1 : uniform 0 size.y d.uy < size.y := by
      unfold uniform
      nlinarith
    refine ⟨p, hp, hsp, ?_, ?_, ?_, ?_⟩ <;> rw [hpos] <;> dsimp only <;> linarith
  · intro sinf gdraws pos2 dims eTime dt ps r hr q hq
    unfold update_particles at hr
    obtain ⟨p0, hp0, hsp0⟩ := update_loop_start_positions cfg sinf gdraws eTime dt
      _ 0 _ [] 0 r hr q hq
    exact ⟨p0, List.mem_of_mem_filter hp0, hsp0⟩

theorem spawn_in_region_and_start_position_immutable_witness :
    ((0 : ℚ) ≤ 1/2) ∧ ((1/2 : ℚ) < 1) ∧ ((0 : ℚ) < 2) ∧ ((0 : ℚ) < 3) ∧
    ((∃ p, spawn_particle defaultSettings ⟨5, 7⟩ ⟨2, 3⟩ ⟨1/2, 1/3, 0, 0, false, false, 0⟩ =
        .ok p ∧
      p.start_position = p.position ∧
      (5 : ℚ) ≤ p.position.x ∧ p.position.x < 5 + 2 ∧
      (7 : ℚ) ≤ p.position.y ∧ p.position.y < 7 + 3) ∧
    (∀ (sinf : ℚ → ℚ) (gdraws : ℕ → Bool) (pos2 dims : Vec2) (eTime dt : ℚ)
      (ps : List Particle) (r : List Particle × List (Option Surface × Vec2) × ℕ),
        update_particles defaultSettings sinf gdraws pos2 dims eTime dt ps = .ok r →
        ∀ q ∈ r.1, ∃ p0 ∈ ps, q.start_position = p0.start_position) ∧
    (∀ (e : Emitter) (c : SettingsPatch),
      (ParticleEmitter.apply_config e c).particles = e.particles)) :=
  ⟨by norm_num, by norm_num, by norm_num, by norm_num,
    spawn_in_region_and_start_position_immutable defaultSettings ⟨5, 7⟩ ⟨2, 3⟩
      ⟨1/2, 1/3, 0, 0, false, false, 0⟩
      (by norm_num [defaultSettings]) (by norm_num [defaultSettings])
      (by norm_num) (by norm_num) (by norm_num) (by norm_num)
      (by norm_num) (by norm_num)⟩

/-- C7.  `apply_config` succeeds on every supplied config and produces
    exactly the spec-described result (`apply_config_spec`): each field
    declared in the target schema that is present on the config is copied
    field-by-field over the live value, declared fields absent from the
    config keep their old value, keys outside the declared schema are
    ignored (they are never read and never written), and the two colour
    fields, when they hold a textual colour code after the copy, are
    resolved through the backend colour parser into RGBA at apply time.
    Separately, any attempt to set a field outside the fixed declared schema
    raises the schema-violation error of `__setattr__`. -/
theorem config_copy_resolves_and_rejects (parse : String → Color) (base cfg : AttrMap) :
    (∃ m', apply_config parse base cfg = .ok m' ∧
      ∀ k, m' k = apply_config_spec parse base cfg k) ∧
    (∀ (k : String) (v : PyVal), k ∉ pbsFields →
      pbsSetattr base k v = .error ("Cannot add new field " ++ k)) := by
  constructor
  · obtain ⟨m1, h1, hc1⟩ := copyFields_char cfg pbsFields base (fun f hf => hf)
    have hcs : "color_start" ∈ pbsFields := by simp [pbsFields]
    have hce : "color_end" ∈ pbsFields := by simp [pbsFields]
    obtain ⟨m2, h2, hc2⟩ := resolveColorField_char parse m1 "color_start" hcs
    obtain ⟨m3, h3, hc3⟩ := resolveColorField_char parse m2 "color_end" hce
    refine ⟨m3, ?_, ?_⟩
    · unfold apply_config
      rw [h1]
      dsimp only
      rw [h2]
      dsimp only
      exact h3
    · intro k
      have hcopied : m1 k = (if k ∈ pbsFields then
          (match cfg k with | some v => some v | none => base k) else base k) := by
        rw [hc1 k]
        by_cases hk : k ∈ pbsFields
        · simp only [hk, if_true, true_and]
          cases hcf : cfg k with
          | none => simp [hcf]
          | some v => simp [hcf]
        · simp [hk]
      rw [hc3 k, hc2 "color_end", hc2 k]
      simp only [apply_config_spec]
      by_cases hkce : k = "color_end"
      · subst hkce
        rw [if_pos rfl, if_neg (by decide : ¬ ("color_end" = "color_start")),
          if_pos (Or.inr rfl), ← hcopied]
      · rw [if_neg hkce]
        by_cases hkcs : k = "color_start"
        · subst hkcs
          rw [if_pos rfl, if_pos (Or.inl rfl), ← hcopied]
        · rw [if_neg hkcs, if_neg (by simp [hkcs, hkce]), ← hcopied]
  · intro k v hk
    unfold pbsSetattr
    rw [if_neg hk]

theorem config_copy_resolves_and_rejects_witness :
    (∃ m', apply_config (fun _ => ⟨9, 9, 9, 9⟩)
        (fun k => if k = "color_start" then some (.str "#be4a2f") else none)
        (fun k => if k = "spawn_rate" then some (.int 5) else none) = .ok m' ∧
      m' "spawn_rate" = some (.int 5) ∧
      m' "color_start" = some (.rgba ⟨9, 9, 9, 9⟩)) ∧
    pbsSetattr (fun k => if k = "color_start" then some (.str "#be4a2f") else none)
        "velocity" (.int 1) = .error ("Cannot add new field " ++ "velocity") := by
  have h := config_copy_resolves_and_rejects (fun _ => ⟨9, 9, 9, 9⟩)
    (fun k => if k = "color_start" then some (.str "#be4a2f") else none)
    (fun k => if k = "spawn_rate" then some (.int 5) else none)
  obtain ⟨m', hok, hchar⟩ := h.1
  refine ⟨⟨m', hok, ?_, ?_⟩, h.2 "velocity" (.int 1) (by decide)⟩
  · rw [hchar]
    rfl
  · rw [hchar]
    rfl

/-- The default settings with the LINE particle kind selected. -/
def lineSettings : ParticleBaseSettings := { defaultSettings with particle_type := .LINE }

/-- A line-kind emitter holding one live particle whose velocity is zero. -/
def lineEmitter : Emitter :=
  { position := ⟨0, 0⟩
    size := ⟨0, 0⟩
    dimensions := ⟨64, 64⟩
    particles := [⟨⟨1, 1⟩, ⟨1, 1⟩, ⟨0, 0⟩, 1/2, 1, 1, whiteC, 0, 1, 1, none, none, 255⟩]
    spawn_timer := 0
    master_clock := 0
    time_elapsed := 0
    blit_list := []
    glow_blit_list := []
    particle_count := 1
    is_active := false
    p_base := lineSettings }

/-- C8.  For the line kind, `render` normalizes every live particle's
    velocity by its Euclidean length `sqrt(vx² + vy²)`, so it raises a
    divide-by-zero error as soon as some live particle has zero velocity
    (sqrt of 0 is 0 and the subsequent division fails); for every line-kind
    particle with nonzero velocity the segment computation succeeds.  `sqrtf`
    stands for the external `math.sqrt`, assumed to vanish at 0 and to be
    positive on positive inputs. -/
theorem line_render_zero_velocity_division (sqrtf : ℚ → ℚ) (e : Emitter) (offset : Vec2)
    (h0 : sqrtf 0 = 0) (hpos : ∀ x : ℚ, 0 < x → 0 < sqrtf x)
    (hL : e.p_base.particle_type = .LINE) :
    ((∃ p ∈ e.particles, p.velocity = (⟨0, 0⟩ : Vec2)) →
      ∃ m, ParticleEmitter.render sqrtf e offset = .error m) ∧
    (∀ p : Particle, p.velocity ≠ (⟨0, 0⟩ : Vec2) →
      ∃ seg, lineSeg sqrtf offset p = .ok seg) := by
  constructor
  · rintro ⟨p, hp, hv⟩
    obtain ⟨m, hm⟩ := lineSegs_error_of_mem sqrtf offset e.particles p hp _
      (lineSeg_zero_velocity sqrtf offset p h0 hv)
    refine ⟨m, ?_⟩
    unfold ParticleEmitter.render
    rw [if_pos hL, hm]
  · exact fun p hv => lineSeg_ok_of_nonzero sqrtf offset p hpos hv

/-- A stand-in for the backend square root used to witness the line-render
    theorem: it vanishes at 0 and is positive on positive inputs. -/
def sqrtStub (x : ℚ) : ℚ := if x ≤ 0 then 0 else 1

theorem line_render_zero_velocity_division_witness :
    (sqrtStub 0 = 0) ∧
    lineEmitter.p_base.particle_type = .LINE ∧
    (∃ m, ParticleEmitter.render sqrtStub lineEmitter ⟨0, 0⟩ = .error m) ∧
    (∃ seg, lineSeg sqrtStub ⟨0, 0⟩
      ⟨⟨1, 1⟩, ⟨1, 1⟩, ⟨3, 4⟩, 1/2, 1, 1, whiteC, 0, 1, 1, none, none, 255⟩ = .ok seg) := by
  have h0 : sqrtStub 0 = 0 := by norm_num [sqrtStub]
  have hp : ∀ x : ℚ, 0 < x → 0 < sqrtStub x := by
    intro x hx
    unfold sqrtStub
    simp only [not_le.mpr hx, if_false]
    norm_num
  have h := line_render_zero_velocity_division sqrtStub lineEmitter ⟨0, 0⟩ h0 hp rfl
  refine ⟨h0, rfl, ?_, ?_⟩
  · exact h.1 ⟨⟨⟨1, 1⟩, ⟨1, 1⟩, ⟨0, 0⟩, 1/2, 1, 1, whiteC, 0, 1, 1, none, none, 255⟩,
      by simp [lineEmitter], rfl⟩
  · refine h.2 _ ?_
    simp only [ne_eq, Vec2.mk.injEq]
    norm_num

theorem shapeFor_animation (cfg : ParticleBaseSettings) (gdraws : ℕ → Bool) (gidx : ℕ)
    (p : Particle) (h : cfg.particle_type = .ANIMATION) :
    shapeFor cfg gdraws gidx p = .ok (none, none, gidx) := by
  unfold shapeFor
  rw [h]

/-- C10.  With the ANIMATION kind configured, the update loop's shape match
    is a no-op stub, so every processed particle contributes a pair whose
    surface component is `none` to the frame's draw batch; `render` then
    takes the non-LINE path and submits that whole batch — null surfaces
    included — to the one batched `fblits` call instead of performing a safe
    no-op. -/
theorem animation_batches_null_surfaces (sinf sqrtf : ℚ → ℚ) (e : Emitter) (dt : ℚ)
    (gate : ℕ) (sdraws : ℕ → SpawnDraws) (gdraws : ℕ → Bool) (offset : Vec2) (p : Particle)
    (hanim : e.p_base.particle_type = .ANIMATION)
    (hinact : e.is_active = false)
    (hps : e.particles = [p])
    (hin : (roomRect e.position e.dimensions).collidepoint p.position = true)
    (hlife : p.lifetime ≠ 0) :
    ∃ e', ParticleEmitter.update sinf e dt gate sdraws gdraws = .ok e' ∧
      e'.blit_list.length = 1 ∧
      (∀ entry ∈ e'.blit_list, entry.1 = (none : Option Surface)) ∧
      ∃ res, ParticleEmitter.render sqrtf e' offset = .ok res ∧
        res.out = .batched e'.blit_list := by
  simp only [ParticleEmitter.update, hinact, hps]
  rw [if_neg (by simp)]
  dsimp only
  by_cases hexp : p.lifetime ≤ p.time_elapsed + max dt (1/240)
  · obtain ⟨s, g, gi, hsh, heq⟩ := update_singleton_expire e.p_base sinf gdraws
      e.position e.dimensions (e.time_elapsed + dt) dt p hin hlife hexp
    rw [shapeFor_animation e.p_base gdraws 0 _ hanim] at hsh
    simp only [Except.ok.injEq, Prod.mk.injEq] at hsh
    obtain ⟨hs, hg, hgi⟩ := hsh
    subst hs
    rw [heq]
    refine ⟨_, rfl, rfl, ?_, ?_⟩
    · intro entry he
      rw [List.mem_singleton] at he
      subst he
      rfl
    · unfold ParticleEmitter.render
      rw [if_neg (by simp [hanim])]
      exact ⟨_, rfl, rfl⟩
  · rw [not_le] at hexp
    obtain ⟨s, g, gi, hsh, heq⟩ := update_singleton_survive e.p_base sinf gdraws
      e.position e.dimensions (e.time_elapsed + dt) dt p hin hlife hexp
    rw [shapeFor_animation e.p_base gdraws 0 _ hanim] at hsh
    simp only [Except.ok.injEq, Prod.mk.injEq] at hsh
    obtain ⟨hs, hg, hgi⟩ := hsh
    subst hs
    rw [heq]
    refine ⟨_, rfl, rfl, ?_, ?_⟩
    · intro entry he
      rw [List.mem_singleton] at he
      subst he
      rfl
    · unfold ParticleEmitter.render
      rw [if_neg (by simp [hanim])]
      exact ⟨_, rfl, rfl⟩

/-- The default settings with the ANIMATION stub kind selected. -/
def animSettings : ParticleBaseSettings :=
  { defaultSettings with particle_type := .ANIMATION }

/-- An inactive ANIMATION-kind emitter holding one live particle. -/
def animEmitter : Emitter :=
  { position := ⟨0, 0⟩
    size := ⟨0, 0⟩
    dimensions := ⟨64, 64⟩
    particles := [⟨⟨1, 1⟩, ⟨1, 1⟩, ⟨0, 0⟩, 1/2, 1, 1, whiteC, 0, 1, 1, none, none, 255⟩]
    spawn_timer := 0
    master_clock := 0
    time_elapsed := 0
    blit_list := []
    glow_blit_list := []
    particle_count := 1
    is_active := false
    p_base := animSettings }

theorem animation_batches_null_surfaces_witness :
    animEmitter.p_base.particle_type = .ANIMATION ∧
    animEmitter.is_active = false ∧
    (roomRect animEmitter.position animEmitter.dimensions).collidepoint
      (⟨1, 1⟩ : Vec2) = true ∧
    (∃ e', ParticleEmitter.update (fun _ => 0) animEmitter 0 0
        (fun _ => ⟨0, 0, 0, 0, false, false, 0⟩) (fun _ => false) = .ok e' ∧
      e'.blit_list.length = 1 ∧
      (∀ entry ∈ e'.blit_list, entry.1 = (none : Option Surface)) ∧
      ∃ res, ParticleEmitter.render (fun _ => 0) e' ⟨0, 0⟩ = .ok res ∧
        res.out = .batched e'.blit_list) := by
  have hin : (roomRect animEmitter.position animEmitter.dimensions).collidepoint
      (⟨1, 1⟩ : Vec2) = true := by
    simp only [animEmitter, roomRect, Rect.collidepoint, pyFloorDiv, pyInt,
      decide_eq_true_eq]
    norm_num
  exact ⟨rfl, rfl, hin,
    animation_batches_null_surfaces (fun _ => 0) (fun _ => 0) animEmitter 0 0
      (fun _ => ⟨0, 0, 0, 0, false, false, 0⟩) (fun _ => false) ⟨0, 0⟩
      ⟨⟨1, 1⟩, ⟨1, 1⟩, ⟨0, 0⟩, 1/2, 1, 1, whiteC, 0, 1, 1, none, none, 255⟩
      rfl rfl rfl hin (by norm_num)⟩

end Pyco
